import Mathlib

/-! # Correlation-ID propagation: package `correlation`

A shallow embedding of `correlation_id.go` and the properties of its five
operations: `ContextWithCorrelationID`, `ID`, `WithCorrelationID`,
`SetCorrelationID` and `GenerateID`.

Modelling conventions.

* A Go interface value that may be nil is an `Option`; `none` is the nil
  interface. A call that panics returns `Except.error` with the panic.
* `context.Context` values are the immutable chains the standard library
  builds: `Background()`, `TODO()`, cancellation nodes (whose `Value` defers to
  the parent) and `WithValue` nodes.
* `xid.New().String()` is an external primitive. It is a parameter
  `xid : Nat → String`: `xid n` is the string the `n`-th call returns in the
  execution at hand, and the number of calls made so far is threaded as state.
* `http.Header` is a map from strings to string slices, represented by an
  association list in which the first entry for a key is the binding.
* `*http.Request` arguments are valid pointers; a call that mutates the request
  returns the request after the call.
* Claims about which objects a call writes are stated on a second presentation
  of the same operations, over a store in which contexts, header maps and
  requests are held by address; lemmas named `..._denotes` relate the two.
  A handler on that store changes a world (store, identifiers drawn, chunks
  written to response writers); whatever runs after a call starts in the world
  that the call left.
* The inputs on which each operation returns are stated on a third
  presentation, in which a context may be of a user-defined type, given by
  what its method `Value` does, and pointers may be nil; lemmas named
  `..._toAny` relate it to the first.
-/

namespace Correlation

/-! ## Go values and panics -/

/-- A Go interface value of static type `any`: the dynamic type together with
the value. `key` is the unexported type `key` of this package (`type key int`);
`other` stands for a value of any further type, with the name of that type,
whether the type is comparable, and a rendering that determines the value up
to Go's `==`. Two values are `==` exactly when they are equal here; a value
that is not `==` to itself (a floating-point NaN) has no representation. -/
inductive GoAny where
  | nil
  | string (s : String)
  | int (n : Int)
  | key (n : Int)
  | other (typeName : String) (comparable : Bool) (repr : String)
  deriving DecidableEq, Repr

/-- Whether the dynamic type of the value is comparable
(`reflectlite.TypeOf(key).Comparable()`). -/
def GoAny.comparable : GoAny → Bool
  | .other _ c _ => c
  | _ => true

/-- The run-time panics the operations can raise. -/
inductive Panic where
  /-- Raised by context.WithValue: "cannot create context from nil parent". -/
  | nilParent
  /-- Raised by context.WithValue: "nil key". -/
  | nilKey
  /-- Raised by context.WithValue: "key is not comparable". -/
  | keyNotComparable
  /-- Raised by Request.WithContext: "nil context". -/
  | nilContext
  /-- A method call through a nil interface value. -/
  | nilDereference
  /-- The run-time error "assignment to entry in nil map". -/
  | nilMapAssignment
  /-- A panic raised by handler code. -/
  | raised (msg : String)
  deriving DecidableEq, Repr

/-- Go `len` of a string: its length in bytes. -/
def len (s : String) : Nat := s.utf8ByteSize

/-! ## Constants of the package -/

/-- The constant `correlationIDKey key = 1234097`, as an interface value. -/
def correlationIDKey : GoAny := GoAny.key 1234097

/-- The constant `correlationIDHeaderName string = "Correlation-ID"`. -/
def correlationIDHeaderName : String := "Correlation-ID"

/-! ## package context -/

/-- A non-nil `context.Context`. -/
inductive Context where
  | background
  | todo
  | cancelCtx (parent : Context)
  | valueCtx (parent : Context) (key val : GoAny)
  deriving DecidableEq, Repr

/-- Method `Value`: walk from the leaf towards the root and return the value of
the first node whose key equals `k`; the nil interface when there is none. -/
def Context.Value : Context → GoAny → GoAny
  | .background, _ => GoAny.nil
  | .todo, _ => GoAny.nil
  | .cancelCtx parent, k => parent.Value k
  | .valueCtx parent key val, k => if key = k then val else parent.Value k

/-- Function `context.WithValue(parent, key, val)`. -/
def WithValue (parent : Option Context) (key val : GoAny) : Except Panic Context :=
  match parent with
  | none => Except.error Panic.nilParent
  | some p =>
    if key = GoAny.nil then Except.error Panic.nilKey
    else if key.comparable = false then Except.error Panic.keyNotComparable
    else Except.ok (Context.valueCtx p key val)

/-- Whether some `WithValue` node of the chain binds the key `k`. -/
def Context.binds : Context → GoAny → Bool
  | .background, _ => false
  | .todo, _ => false
  | .cancelCtx parent, k => parent.binds k
  | .valueCtx parent key _, k => decide (key = k) || parent.binds k

/-! ## package net/http -/

/-- The token bytes of RFC 7230 (`validHeaderFieldByte`). -/
def validHeaderFieldByte (c : Char) : Bool :=
  let n := c.toNat
  decide (48 ≤ n ∧ n ≤ 57) || decide (65 ≤ n ∧ n ≤ 90) || decide (97 ≤ n ∧ n ≤ 122)
    || [33, 35, 36, 37, 38, 39, 42, 43, 45, 46, 94, 95, 96, 124, 126].contains n

/-- The loop of `canonicalMIMEHeaderKey`: upper case for the first letter and
for a letter after a dash, lower case for every other letter. -/
def canonicalBytes : Bool → List Char → List Char
  | _, [] => []
  | upper, c :: cs =>
    let c2 : Char :=
      if upper = true ∧ 97 ≤ c.toNat ∧ c.toNat ≤ 122 then Char.ofNat (c.toNat - 32)
      else if upper = false ∧ 65 ≤ c.toNat ∧ c.toNat ≤ 90 then Char.ofNat (c.toNat + 32)
      else c
    c2 :: canonicalBytes (c2.toNat == 45) cs

/-- Function `textproto.CanonicalMIMEHeaderKey`: a key holding a byte that is
not a token byte is returned unchanged. -/
def CanonicalMIMEHeaderKey (s : String) : String :=
  if s.data.all validHeaderFieldByte then String.mk (canonicalBytes true s.data) else s

/-- The entries of a non-nil `map[string][]string`. -/
abbrev HeaderMap := List (String × List String)

/-- An `http.Header`; `none` is the nil map. -/
abbrev Header := Option HeaderMap

/-- Map index expression `m[k]`: the nil slice when the key is absent. -/
def HeaderMap.index (m : HeaderMap) (k : String) : List String :=
  (List.lookup k m).getD []

/-- Map assignment `m[k] = v`. -/
def HeaderMap.assign (m : HeaderMap) (k : String) (v : List String) : HeaderMap :=
  (k, v) :: m.filter (fun e => e.1 ≠ k)

/-- Method `Header.Get`: the first value under the canonical form of the key,
the empty string when there is none or the map is nil. -/
def Header.Get (h : Header) (key : String) : String :=
  match h with
  | none => ""
  | some m =>
    match m.index (CanonicalMIMEHeaderKey key) with
    | [] => ""
    | v :: _ => v

/-- Method `Header.Values`: all values under the canonical form of the key. -/
def Header.Values (h : Header) (key : String) : List String :=
  match h with
  | none => []
  | some m => m.index (CanonicalMIMEHeaderKey key)

/-- Method `Header.Set`: replace the values under the canonical form of the key
by the single value; assigning into the nil map panics. -/
def Header.Set (h : Header) (key value : String) : Except Panic Header :=
  match h with
  | none => Except.error Panic.nilMapAssignment
  | some m => Except.ok (some (m.assign (CanonicalMIMEHeaderKey key) [value]))

/-- The fields of an `http.Request` that the package reads or that identify the
request. -/
structure Request where
  Method : String
  URL : String
  Header : Header
  Body : String
  ctx : Option Context
  deriving DecidableEq, Repr

/-- Method `Request.Context`: the background context when none was set. -/
def Request.Context (r : Request) : Context :=
  match r.ctx with
  | some c => c
  | none => Context.background

/-- Method `Request.WithContext`: a shallow copy with the context replaced. -/
def Request.WithContext (r : Request) (ctx : Option Correlation.Context) :
    Except Panic Request :=
  match ctx with
  | none => Except.error Panic.nilContext
  | some c => Except.ok { r with ctx := some c }

/-- An `http.ResponseWriter`, by the identity of the writer object. -/
abbrev ResponseWriter := Nat

/-- An `http.Handler`. Serving takes the writer, the request and the number of
identifiers drawn so far; it ends in a panic or in an outcome of type `ρ`. -/
structure Handler (ρ : Type) where
  ServeHTTP : ResponseWriter → Request → Nat → Except Panic ρ

/-- The adapter `http.HandlerFunc`. -/
def HandlerFunc {ρ : Type} (f : ResponseWriter → Request → Nat → Except Panic ρ) : Handler ρ :=
  { ServeHTTP := f }

/-! ## package correlation -/

/-- Function `GenerateID`: the next string of `xid.New().String()`. -/
def GenerateID (xid : Nat → String) (n : Nat) : String × Nat :=
  (xid n, n + 1)

/-- Function `ContextWithCorrelationID(parent, correlationID...)`. -/
def ContextWithCorrelationID (xid : Nat → String) (parent : Option Context)
    (correlationID : List String) (n : Nat) : Except Panic (Context × Nat) :=
  let idn : String × Nat :=
    if correlationID.length = 0 ∨ len (correlationID.getD 0 "") = 0 then GenerateID xid n
    else (correlationID.getD 0 "", n)
  match WithValue parent correlationIDKey (GoAny.string idn.1) with
  | Except.error e => Except.error e
  | Except.ok c => Except.ok (c, idn.2)

/-- Function `ID(ctx)`: the comma-ok type assertion to `string` gives the empty
string when the value is absent or is not a string. -/
def ID (ctx : Option Context) : Except Panic String :=
  match ctx with
  | none => Except.error Panic.nilDereference
  | some c =>
    match c.Value correlationIDKey with
    | GoAny.string id => Except.ok id
    | _ => Except.ok ""

/-- Function `WithCorrelationID(next)`. -/
def WithCorrelationID {ρ : Type} (xid : Nat → String) (next : Handler ρ) : Handler ρ :=
  HandlerFunc (fun w r n =>
    let correlationID := Header.Get r.Header correlationIDHeaderName
    let idn : String × Nat := if correlationID = "" then GenerateID xid n else (correlationID, n)
    match ContextWithCorrelationID xid (some r.Context) [idn.1] idn.2 with
    | Except.error e => Except.error e
    | Except.ok (c, n2) =>
      match r.WithContext (some c) with
      | Except.error e => Except.error e
      | Except.ok r2 => next.ServeHTTP w r2 n2)

/-- Function `SetCorrelationID(ctx, r)`: the request after the call and the
number of identifiers drawn. -/
def SetCorrelationID (xid : Nat → String) (ctx : Option Context) (r : Request) (n : Nat) :
    Except Panic (Request × Nat) :=
  match ID ctx with
  | Except.error e => Except.error e
  | Except.ok id =>
    let idn : String × Nat := if len id = 0 then GenerateID xid n else (id, n)
    match Header.Set r.Header correlationIDHeaderName idn.1 with
    | Except.error e => Except.error e
    | Except.ok h => Except.ok ({ r with Header := h }, idn.2)

/-! ## Contexts as objects in memory

The functions above take a context as the chain of bindings it denotes. To
state what a derivation does to the contexts that exist already, the same
operations are given on references: a context is an address in a store of
context objects, and a derivation allocates one object. -/

/-- A context object; the parent is held by its address. -/
inductive CtxObject where
  | backgroundCtx
  | todoCtx
  | cancelCtx (parent : Nat)
  | valueCtx (parent : Nat) (key val : GoAny)
  deriving DecidableEq, Repr

/-- The context objects allocated so far: the object at address a is entry a. -/
abbrev CtxHeap := List CtxObject

/-- Whether the parent of the object, when it has one, lies below address a. -/
def CtxObject.parentBelow (o : CtxObject) (a : Nat) : Bool :=
  match o with
  | .backgroundCtx => true
  | .todoCtx => true
  | .cancelCtx parent => decide (parent < a)
  | .valueCtx parent _ _ => decide (parent < a)

/-- Every object was allocated after its parent. -/
def CtxHeap.wellFormed (h : CtxHeap) : Bool :=
  (List.range h.length).all (fun a =>
    match h[a]? with
    | some o => o.parentBelow a
    | none => true)

/-- The chain of bindings denoted by address a, following at most fuel parent
references; none when the fuel is used up or an address is not allocated. -/
def CtxHeap.load (h : CtxHeap) : Nat → Nat → Option Context
  | 0, _ => none
  | fuel + 1, a =>
    match h[a]? with
    | none => none
    | some CtxObject.backgroundCtx => some Context.background
    | some CtxObject.todoCtx => some Context.todo
    | some (CtxObject.cancelCtx parent) => (h.load fuel parent).map Context.cancelCtx
    | some (CtxObject.valueCtx parent key val) =>
      (h.load fuel parent).map (fun c => Context.valueCtx c key val)

/-- Method Value of the context at address a. -/
def CtxHeap.ValueAt (h : CtxHeap) (a : Nat) (k : GoAny) : Option GoAny :=
  (h.load (a + 1) a).map (fun c => c.Value k)

/-- Function ID applied to the context at address a. -/
def CtxHeap.IDAt (h : CtxHeap) (a : Nat) : Option (Except Panic String) :=
  (h.load (a + 1) a).map (fun c => ID (some c))

/-- Function context.WithValue on references: the new valueCtx object is
allocated at the next free address; no existing object is written. -/
def WithValueRef (h : CtxHeap) (parent : Option Nat) (key val : GoAny) :
    Except Panic (CtxHeap × Nat) :=
  match parent with
  | none => Except.error Panic.nilParent
  | some p =>
    if key = GoAny.nil then Except.error Panic.nilKey
    else if key.comparable = false then Except.error Panic.keyNotComparable
    else Except.ok (h ++ [CtxObject.valueCtx p key val], h.length)

/-- Function ContextWithCorrelationID on references: the store after the call,
the address of the returned context and the number of identifiers drawn. -/
def ContextWithCorrelationIDRef (xid : Nat → String) (h : CtxHeap) (parent : Option Nat)
    (correlationID : List String) (n : Nat) : Except Panic (CtxHeap × Nat × Nat) :=
  let idn : String × Nat :=
    if correlationID.length = 0 ∨ len (correlationID.getD 0 "") = 0 then GenerateID xid n
    else (correlationID.getD 0 "", n)
  match WithValueRef h parent correlationIDKey (GoAny.string idn.1) with
  | Except.error e => Except.error e
  | Except.ok (h2, child) => Except.ok (h2, child, idn.2)

/-- A store with three contexts: Background, a binding of an unrelated key on
it, and a correlation ID bound on that. -/
def sampleHeap : CtxHeap :=
  [CtxObject.backgroundCtx,
   CtxObject.valueCtx 0 (GoAny.string "user") (GoAny.string "alice"),
   CtxObject.valueCtx 1 correlationIDKey (GoAny.string "corrID-123")]

/-! ## Requests and header maps as objects in memory

A header map is written in place and a request is passed by pointer. To state
which objects a call writes, the two HTTP operations are also given on a store
of objects: context objects, header maps and request objects, each kind
addressed by its position. An address that is not allocated stands for the nil
pointer. -/

/-- A request object: the header map and the context are held by address;
none is nil. -/
structure RequestObject where
  Method : String
  URL : String
  Header : Option Nat
  Body : String
  ctx : Option Nat
  deriving DecidableEq, Repr

/-- The objects allocated so far. -/
structure Store where
  ctxs : CtxHeap
  maps : List HeaderMap
  requests : List RequestObject
  deriving DecidableEq, Repr

/-- Whether a reference is nil or an address below the bound. -/
def validRef (ref : Option Nat) (bound : Nat) : Bool :=
  match ref with
  | none => true
  | some a => decide (a < bound)

/-- Every context object was allocated after its parent and every request
object refers to an allocated header map and an allocated context. -/
def Store.wellFormed (st : Store) : Bool :=
  st.ctxs.wellFormed
    && st.requests.all (fun ro =>
      validRef ro.Header st.maps.length && validRef ro.ctx st.ctxs.length)

/-- The header that a map reference denotes. -/
def Store.loadHeader (st : Store) (h : Option Nat) : Header :=
  match h with
  | none => none
  | some a => st.maps[a]?

/-- The chain of bindings that a context reference denotes. -/
def Store.loadContext (st : Store) (c : Option Nat) : Option Context :=
  match c with
  | none => none
  | some a => st.ctxs.load (a + 1) a

/-- The request that a request address denotes. -/
def Store.loadRequest (st : Store) (r : Nat) : Option Request :=
  match st.requests[r]? with
  | none => none
  | some ro =>
    some { Method := ro.Method, URL := ro.URL, Header := st.loadHeader ro.Header,
           Body := ro.Body, ctx := st.loadContext ro.ctx }

/-- Function ID on a context reference. -/
def IDRef (st : Store) (ctx : Option Nat) : Except Panic String :=
  ID (st.loadContext ctx)

/-- Method Header.Set through a map reference: the map object is written in
place. -/
def Store.HeaderSet (st : Store) (h : Option Nat) (key value : String) : Except Panic Store :=
  match h with
  | none => Except.error Panic.nilMapAssignment
  | some a =>
    match st.maps[a]? with
    | none => Except.error Panic.nilMapAssignment
    | some m =>
      Except.ok { st with maps := st.maps.set a (m.assign (CanonicalMIMEHeaderKey key) [value]) }

/-- Method Request.Context on a request object: the context of the request,
or Background() when none was set; the background context is a new object. -/
def Store.RequestContext (st : Store) (ro : RequestObject) : Store × Nat :=
  match ro.ctx with
  | some a => (st, a)
  | none => ({ st with ctxs := st.ctxs ++ [CtxObject.backgroundCtx] }, st.ctxs.length)

/-- Method Request.WithContext on a request object: a new request object, a
shallow copy that refers to the same header map. -/
def Store.RequestWithContext (st : Store) (ro : RequestObject) (ctx : Option Nat) :
    Except Panic (Store × Nat) :=
  match ctx with
  | none => Except.error Panic.nilContext
  | some c =>
    Except.ok ({ st with requests := st.requests ++ [{ ro with ctx := some c }] },
      st.requests.length)

/-- What serving a request can change: the objects, the number of identifiers
drawn so far, and what has been written to the response writers, in order. -/
structure World where
  store : Store
  drawn : Nat
  written : List (ResponseWriter × String)
  deriving DecidableEq, Repr

/-- An http.Handler on references: serving takes the writer and the address of
the request, and changes the world or panics. -/
structure HandlerRef where
  ServeHTTP : ResponseWriter → Nat → World → Except Panic World

/-- Function WithCorrelationID on references. The world that the inner handler
leaves is the world that the returned handler leaves. -/
def WithCorrelationIDRef (xid : Nat → String) (next : HandlerRef) : HandlerRef :=
  { ServeHTTP := fun w r wd =>
      match wd.store.requests[r]? with
      | none => Except.error Panic.nilDereference
      | some ro =>
        let correlationID := Header.Get (wd.store.loadHeader ro.Header) correlationIDHeaderName
        let idn : String × Nat :=
          if correlationID = "" then GenerateID xid wd.drawn else (correlationID, wd.drawn)
        let st1 := wd.store.RequestContext ro
        match ContextWithCorrelationIDRef xid st1.1.ctxs (some st1.2) [idn.1] idn.2 with
        | Except.error e => Except.error e
        | Except.ok (ctxs2, child, n2) =>
          match Store.RequestWithContext { st1.1 with ctxs := ctxs2 } ro (some child) with
          | Except.error e => Except.error e
          | Except.ok (st2, r2) =>
            next.ServeHTTP w r2 { store := st2, drawn := n2, written := wd.written } }

/-- Function SetCorrelationID on references: the store after the call and the
number of identifiers drawn. -/
def SetCorrelationIDRef (xid : Nat → String) (st : Store) (ctx : Option Nat) (r : Nat)
    (n : Nat) : Except Panic (Store × Nat) :=
  match IDRef st ctx with
  | Except.error e => Except.error e
  | Except.ok id =>
    let idn : String × Nat := if len id = 0 then GenerateID xid n else (id, n)
    match st.requests[r]? with
    | none => Except.error Panic.nilDereference
    | some ro =>
      match st.HeaderSet ro.Header correlationIDHeaderName idn.1 with
      | Except.error e => Except.error e
      | Except.ok st2 => Except.ok (st2, idn.2)

/-- A store with the contexts of sampleHeap, two header maps and two requests:
request 0 has no context and no "Correlation-ID" header, request 1 has both. -/
def sampleStore : Store :=
  { ctxs := sampleHeap,
    maps := [[("Accept", ["text/plain"]), ("Correlation-ID", ["raw"])],
             [("Accept", ["text/plain"]), ("Correlation-Id", ["corrID-123"])]],
    requests := [{ Method := "GET", URL := "/things", Header := some 0, Body := "", ctx := none },
                 { Method := "POST", URL := "/things", Header := some 1, Body := "payload",
                   ctx := some 2 }] }

/-- Request 0 of sampleStore. -/
def sampleRequestObject : RequestObject :=
  { Method := "GET", URL := "/things", Header := some 0, Body := "", ctx := none }

/-- An inner handler that does nothing. -/
def idleHandler : HandlerRef :=
  { ServeHTTP := fun _ _ wd => Except.ok wd }

/-- An inner handler that writes the correlation ID of the request it is
served, ID(r.Context()), to the response writer. -/
def echoHandler : HandlerRef :=
  { ServeHTTP := fun w r wd =>
      match wd.store.requests[r]? with
      | none => Except.error Panic.nilDereference
      | some ro =>
        let st1 := wd.store.RequestContext ro
        match IDRef st1.1 (some st1.2) with
        | Except.error e => Except.error e
        | Except.ok id =>
          Except.ok { store := st1.1, drawn := wd.drawn, written := wd.written ++ [(w, id)] } }

/-- A variant of WithCorrelationIDRef, not part of the package: it serves the
inner handler a second time, in the world the first call left. The statement
of delegation tells it apart from WithCorrelationIDRef. -/
def serveTwice (xid : Nat → String) (next : HandlerRef) : HandlerRef :=
  { ServeHTTP := fun w r wd =>
      match wd.store.requests[r]? with
      | none => Except.error Panic.nilDereference
      | some ro =>
        let correlationID := Header.Get (wd.store.loadHeader ro.Header) correlationIDHeaderName
        let idn : String × Nat :=
          if correlationID = "" then GenerateID xid wd.drawn else (correlationID, wd.drawn)
        let st1 := wd.store.RequestContext ro
        match ContextWithCorrelationIDRef xid st1.1.ctxs (some st1.2) [idn.1] idn.2 with
        | Except.error e => Except.error e
        | Except.ok (ctxs2, child, n2) =>
          match Store.RequestWithContext { st1.1 with ctxs := ctxs2 } ro (some child) with
          | Except.error e => Except.error e
          | Except.ok (st2, r2) =>
            match next.ServeHTTP w r2 { store := st2, drawn := n2, written := wd.written } with
            | Except.error e => Except.error e
            | Except.ok wd3 => next.ServeHTTP w r2 wd3 }

/-- A variant of WithCorrelationIDRef, not part of the package: after the inner
handler has returned it sets the "Correlation-ID" header of the inbound
request. The statement of no write-back tells it apart from
WithCorrelationIDRef. -/
def writeBackAfter (xid : Nat → String) (next : HandlerRef) : HandlerRef :=
  { ServeHTTP := fun w r wd =>
      match wd.store.requests[r]? with
      | none => Except.error Panic.nilDereference
      | some ro =>
        let correlationID := Header.Get (wd.store.loadHeader ro.Header) correlationIDHeaderName
        let idn : String × Nat :=
          if correlationID = "" then GenerateID xid wd.drawn else (correlationID, wd.drawn)
        let st1 := wd.store.RequestContext ro
        match ContextWithCorrelationIDRef xid st1.1.ctxs (some st1.2) [idn.1] idn.2 with
        | Except.error e => Except.error e
        | Except.ok (ctxs2, child, n2) =>
          match Store.RequestWithContext { st1.1 with ctxs := ctxs2 } ro (some child) with
          | Except.error e => Except.error e
          | Except.ok (st2, r2) =>
            match next.ServeHTTP w r2 { store := st2, drawn := n2, written := wd.written } with
            | Except.error e => Except.error e
            | Except.ok wd3 =>
              match wd3.store.HeaderSet ro.Header correlationIDHeaderName idn.1 with
              | Except.error e => Except.error e
              | Except.ok st4 =>
                Except.ok { store := st4, drawn := wd3.drawn, written := wd3.written } }

/-- Every object of the first store is in the second store, unchanged. -/
def Store.preservedIn (st st2 : Store) : Prop :=
  (∀ a, a < st.ctxs.length → st2.ctxs[a]? = st.ctxs[a]?)
  ∧ (∀ a, a < st.maps.length → st2.maps[a]? = st.maps[a]?)
  ∧ (∀ a, a < st.requests.length → st2.requests[a]? = st.requests[a]?)

/-- The handler writes no object that exists when it is called. -/
def HandlerRef.writesNoExisting (h : HandlerRef) : Prop :=
  ∀ (w : ResponseWriter) (r : Nat) (wd wd2 : World),
    h.ServeHTTP w r wd = Except.ok wd2 → wd.store.preservedIn wd2.store

/-! ## Contexts of any type, and nil pointers

The interface context.Context is open: a caller can pass a context whose type
is declared outside package context, and the package then calls the method
Value of that type. To state on which inputs each operation returns, the
operations are given once more with such a context among the arguments, and
with the request pointer and the inner handler possibly nil. A context is
given by what its method Value does: return a value, or panic. -/

/-- A non-nil context of any dynamic type, by its method Value, the only method
of a context that the package calls. -/
structure AnyContext where
  Value : GoAny → Except Panic GoAny

/-- A context built by package context, among the contexts of any type: its
method Value returns for every key. -/
def Context.toAny (c : Context) : AnyContext :=
  { Value := fun k => Except.ok (c.Value k) }

/-- Function context.WithValue on a parent of any type: no method of the parent
is called; the new valueCtx node answers for its own key and asks the parent
for every other key. -/
def WithValueAny (parent : Option AnyContext) (key val : GoAny) : Except Panic AnyContext :=
  match parent with
  | none => Except.error Panic.nilParent
  | some p =>
    if key = GoAny.nil then Except.error Panic.nilKey
    else if key.comparable = false then Except.error Panic.keyNotComparable
    else Except.ok { Value := fun k => if key = k then Except.ok val else p.Value k }

/-- Function ContextWithCorrelationID on a parent of any type. -/
def ContextWithCorrelationIDAny (xid : Nat → String) (parent : Option AnyContext)
    (correlationID : List String) (n : Nat) : Except Panic (AnyContext × Nat) :=
  let idn : String × Nat :=
    if correlationID.length = 0 ∨ len (correlationID.getD 0 "") = 0 then GenerateID xid n
    else (correlationID.getD 0 "", n)
  match WithValueAny parent correlationIDKey (GoAny.string idn.1) with
  | Except.error e => Except.error e
  | Except.ok c => Except.ok (c, idn.2)

/-- Function ID on a context of any type: a panic of the method Value is a
panic of ID. -/
def IDAny (ctx : Option AnyContext) : Except Panic String :=
  match ctx with
  | none => Except.error Panic.nilDereference
  | some c =>
    match c.Value correlationIDKey with
    | Except.error e => Except.error e
    | Except.ok (GoAny.string id) => Except.ok id
    | Except.ok _ => Except.ok ""

/-- An http.Request whose context is of any type. -/
structure RequestAny where
  Method : String
  URL : String
  Header : Header
  Body : String
  ctx : Option AnyContext

/-- Method Request.Context: the background context when none was set. -/
def RequestAny.Context (r : RequestAny) : AnyContext :=
  match r.ctx with
  | some c => c
  | none => Correlation.Context.background.toAny

/-- Method Request.WithContext: a shallow copy with the context replaced. -/
def RequestAny.WithContext (r : RequestAny) (ctx : Option AnyContext) :
    Except Panic RequestAny :=
  match ctx with
  | none => Except.error Panic.nilContext
  | some c => Except.ok { r with ctx := some c }

/-- A request of the first presentation, as a request whose context is of any
type. -/
def Request.toAny (r : Request) : RequestAny :=
  { Method := r.Method, URL := r.URL, Header := r.Header, Body := r.Body,
    ctx := r.ctx.map Correlation.Context.toAny }

/-- An http.Handler served a request pointer that may be nil. -/
structure HandlerAny (ρ : Type) where
  ServeHTTP : ResponseWriter → Option RequestAny → Nat → Except Panic ρ

/-- Function WithCorrelationID with an inner handler that may be nil, served a
request pointer that may be nil. -/
def WithCorrelationIDAny {ρ : Type} (xid : Nat → String) (next : Option (HandlerAny ρ)) :
    HandlerAny ρ :=
  { ServeHTTP := fun w r n =>
      match r with
      | none => Except.error Panic.nilDereference
      | some r0 =>
        let correlationID := Header.Get r0.Header correlationIDHeaderName
        let idn : String × Nat :=
          if correlationID = "" then GenerateID xid n else (correlationID, n)
        match ContextWithCorrelationIDAny xid (some r0.Context) [idn.1] idn.2 with
        | Except.error e => Except.error e
        | Except.ok (c, n2) =>
          match r0.WithContext (some c) with
          | Except.error e => Except.error e
          | Except.ok r2 =>
            match next with
            | none => Except.error Panic.nilDereference
            | some nx => nx.ServeHTTP w (some r2) n2 }

/-- Function SetCorrelationID on a context of any type and a request pointer
that may be nil. -/
def SetCorrelationIDAny (xid : Nat → String) (ctx : Option AnyContext)
    (r : Option RequestAny) (n : Nat) : Except Panic (RequestAny × Nat) :=
  match IDAny ctx with
  | Except.error e => Except.error e
  | Except.ok id =>
    let idn : String × Nat := if len id = 0 then GenerateID xid n else (id, n)
    match r with
    | none => Except.error Panic.nilDereference
    | some r0 =>
      match Header.Set r0.Header correlationIDHeaderName idn.1 with
      | Except.error e => Except.error e
      | Except.ok h => Except.ok ({ r0 with Header := h }, idn.2)

/-- A context of a user-defined type whose method Value panics. -/
def panickingContext : AnyContext :=
  { Value := fun _ => Except.error (Panic.raised "Value is not implemented") }

/-- The contract of the external generator: every identifier is non-empty. -/
def XidNonEmpty (xid : Nat → String) : Prop := ∀ k, xid k ≠ ""

/-- A sample generator: twenty characters of the alphabet of xid. -/
def sampleXid (n : Nat) : String :=
  if n % 2 = 0 then "9m4e2mr0ui3e8a215n4g" else "b50vl5e54p1000fo3gh0"

/-- An inbound request with the header of the tests, "Correlation-ID: corrID-123". -/
def sampleRequest : Request :=
  { Method := "GET", URL := "/things",
    Header := some [("Accept", ["text/plain"]), ("Correlation-Id", ["corrID-123"])],
    Body := "", ctx := none }

/-- A request without a "Correlation-ID" header. -/
def bareRequest : Request :=
  { Method := "POST", URL := "/things",
    Header := some [("Accept", ["text/plain"]), ("Correlation-Id", [])],
    Body := "payload", ctx := some (Context.cancelCtx Context.background) }

/-! ## Basic facts -/

theorem len_eq_zero_iff (s : String) : len s = 0 ↔ s = "" := by
  rcases s with ⟨cs⟩
  cases cs with
  | nil => simp [len, String.utf8ByteSize, String.utf8ByteSize.go]
  | cons c cs =>
    have hc := Char.utf8Size_pos c
    simp only [len, String.utf8ByteSize, String.utf8ByteSize.go]
    constructor
    · intro h
      omega
    · intro h
      exact absurd (congrArg String.data h) (by simp)

theorem canonical_correlationIDHeaderName :
    CanonicalMIMEHeaderKey correlationIDHeaderName = "Correlation-Id" := by
  decide

/-- The case "context with normal correlation ID" of TestContextWithCorrelationID. -/
theorem test_ContextWithCorrelationID_normal :
    (ContextWithCorrelationID sampleXid (some Context.background) ["corrID-123"] 0).map Prod.fst
      = WithValue (some Context.background) correlationIDKey (GoAny.string "corrID-123") := by
  rfl

/-- The two cases of TestID. -/
theorem test_ID :
    ID (some (Context.valueCtx Context.background correlationIDKey (GoAny.string "corrID-123")))
      = Except.ok "corrID-123"
    ∧ ID (some Context.background) = Except.ok "" := by
  exact ⟨rfl, rfl⟩

theorem WithValue_correlationIDKey (p : Context) (v : GoAny) :
    WithValue (some p) correlationIDKey v = Except.ok (Context.valueCtx p correlationIDKey v) := by
  rfl

theorem Value_valueCtx_self (p : Context) (k v : GoAny) :
    (Context.valueCtx p k v).Value k = v := by
  simp [Context.Value]

theorem ID_valueCtx_string (p : Context) (s : String) :
    ID (some (Context.valueCtx p correlationIDKey (GoAny.string s))) = Except.ok s := by
  simp [ID, Value_valueCtx_self]

theorem Value_of_binds_false (c : Context) (k : GoAny) (h : c.binds k = false) :
    c.Value k = GoAny.nil := by
  induction c with
  | background => rfl
  | todo => rfl
  | cancelCtx parent ih => exact ih h
  | valueCtx parent key val ih =>
    simp only [Context.binds, Bool.or_eq_false_iff, decide_eq_false_iff_not] at h
    simp only [Context.Value, if_neg h.1]
    exact ih h.2

/-- With a non-empty first candidate the derived context binds that candidate
and no identifier is drawn. -/
theorem ContextWithCorrelationID_candidate (xid : Nat → String) (parent : Context)
    (s : String) (rest : List String) (n : Nat) (hs : s ≠ "") :
    ContextWithCorrelationID xid (some parent) (s :: rest) n
      = Except.ok (Context.valueCtx parent correlationIDKey (GoAny.string s), n) := by
  have hlen : ¬ len s = 0 := fun h => hs ((len_eq_zero_iff s).1 h)
  simp [ContextWithCorrelationID, WithValue_correlationIDKey, hlen]

/-- With no candidate, or an empty first candidate, the derived context binds
the next generated identifier. -/
theorem ContextWithCorrelationID_generated (xid : Nat → String) (parent : Context)
    (ids : List String) (n : Nat) (h : ids = [] ∨ ids.head? = some "") :
    ContextWithCorrelationID xid (some parent) ids n
      = Except.ok (Context.valueCtx parent correlationIDKey (GoAny.string (xid n)), n + 1) := by
  have h0 : len "" = 0 := (len_eq_zero_iff "").2 rfl
  rcases h with h | h
  · subst h
    simp [ContextWithCorrelationID, WithValue_correlationIDKey, GenerateID]
  · cases ids with
    | nil => simp at h
    | cons a rest =>
      simp only [List.head?_cons, Option.some.injEq] at h
      subst h
      simp [ContextWithCorrelationID, WithValue_correlationIDKey, GenerateID, h0]

theorem HeaderMap_index_assign_self (m : HeaderMap) (k : String) (v : List String) :
    (m.assign k v).index k = v := by
  simp [HeaderMap.index, HeaderMap.assign, List.lookup]

theorem Header_Values_after_Set (m : HeaderMap) (key value : String) :
    ∃ h, Header.Set (some m) key value = Except.ok h ∧ Header.Values h key = [value]
      ∧ Header.Get h key = value := by
  refine ⟨some (m.assign (CanonicalMIMEHeaderKey key) [value]), rfl, ?_, ?_⟩
  · simp [Header.Values, HeaderMap_index_assign_self]
  · simp [Header.Get, HeaderMap_index_assign_self]

/-- The handler with a non-empty header value: the value is bound and the inner
handler is served the request with the derived context. -/
theorem WithCorrelationID_adopts {ρ : Type} (xid : Nat → String) (next : Handler ρ)
    (w : ResponseWriter) (r : Request) (n : Nat) (s : String)
    (hget : Header.Get r.Header correlationIDHeaderName = s) (hs : s ≠ "") :
    (WithCorrelationID xid next).ServeHTTP w r n
      = next.ServeHTTP w
          { r with ctx := some (Context.valueCtx r.Context correlationIDKey (GoAny.string s)) }
          n := by
  simp [WithCorrelationID, HandlerFunc, hget, hs,
    ContextWithCorrelationID_candidate xid r.Context s [] n hs, Request.WithContext]

/-- The handler with an absent or empty header value: one identifier is drawn
and bound, provided it is non-empty. -/
theorem WithCorrelationID_generates {ρ : Type} (xid : Nat → String) (next : Handler ρ)
    (w : ResponseWriter) (r : Request) (n : Nat)
    (hget : Header.Get r.Header correlationIDHeaderName = "") (hx : xid n ≠ "") :
    (WithCorrelationID xid next).ServeHTTP w r n
      = next.ServeHTTP w
          { r with
            ctx := some (Context.valueCtx r.Context correlationIDKey (GoAny.string (xid n))) }
          (n + 1) := by
  simp [WithCorrelationID, HandlerFunc, hget, GenerateID,
    ContextWithCorrelationID_candidate xid r.Context (xid n) [] (n + 1) hx, Request.WithContext]

theorem ContextWithCorrelationID_total (xid : Nat → String) (parent : Context)
    (ids : List String) (n : Nat) :
    ∃ s k, ContextWithCorrelationID xid (some parent) ids n
      = Except.ok (Context.valueCtx parent correlationIDKey (GoAny.string s), k) := by
  cases ids with
  | nil => exact ⟨_, _, ContextWithCorrelationID_generated xid parent [] n (Or.inl rfl)⟩
  | cons a rest =>
    by_cases ha : a = ""
    · subst ha
      exact ⟨_, _, ContextWithCorrelationID_generated xid parent ("" :: rest) n (Or.inr rfl)⟩
    · exact ⟨_, _, ContextWithCorrelationID_candidate xid parent a rest n ha⟩

/-! ### The store of context objects -/

theorem wellFormed_parentBelow (h : CtxHeap) (hwf : h.wellFormed = true) (a : Nat)
    (o : CtxObject) (ho : h[a]? = some o) : o.parentBelow a = true := by
  have ha : a < h.length := by
    rcases Nat.lt_or_ge a h.length with hlt | hge
    · exact hlt
    · rw [List.getElem?_eq_none hge] at ho
      cases ho
  have hall := (List.all_eq_true.1 hwf) a (List.mem_range.2 ha)
  simpa [ho] using hall

theorem wellFormed_append (h : CtxHeap) (hwf : h.wellFormed = true) (o : CtxObject)
    (ho : o.parentBelow h.length = true) : CtxHeap.wellFormed (h ++ [o]) = true := by
  apply List.all_eq_true.2
  intro a ha
  have ha2 : a < h.length + 1 := by simpa using List.mem_range.1 ha
  rcases Nat.lt_or_ge a h.length with hlt | hge
  · rw [List.getElem?_append_left hlt]
    exact (List.all_eq_true.1 hwf) a (List.mem_range.2 hlt)
  · have hEq : a = h.length := by omega
    subst hEq
    simpa using ho

theorem load_append (h : CtxHeap) (hwf : h.wellFormed = true) (l : CtxHeap) :
    ∀ (fuel a : Nat), a < h.length → CtxHeap.load (h ++ l) fuel a = h.load fuel a := by
  intro fuel
  induction fuel with
  | zero => intro a _; rfl
  | succ fuel ih =>
    intro a ha
    have hget : (h ++ l)[a]? = h[a]? := List.getElem?_append_left ha
    simp only [CtxHeap.load, hget]
    cases ho : h[a]? with
    | none => rfl
    | some o =>
      have hb := wellFormed_parentBelow h hwf a o ho
      cases o with
      | backgroundCtx => rfl
      | todoCtx => rfl
      | cancelCtx parent =>
        have hp : parent < a := by simpa [CtxObject.parentBelow] using hb
        simp only [ih parent (Nat.lt_trans hp ha)]
      | valueCtx parent key val =>
        have hp : parent < a := by simpa [CtxObject.parentBelow] using hb
        simp only [ih parent (Nat.lt_trans hp ha)]

theorem load_some (h : CtxHeap) (hwf : h.wellFormed = true) :
    ∀ (fuel a : Nat), a < h.length → a < fuel → ∃ c, h.load fuel a = some c := by
  intro fuel
  induction fuel with
  | zero => intro a _ hf; exact absurd hf (Nat.not_lt_zero a)
  | succ fuel ih =>
    intro a ha hf
    obtain ⟨o, ho⟩ : ∃ o, h[a]? = some o := ⟨h[a], List.getElem?_eq_getElem ha⟩
    have hb := wellFormed_parentBelow h hwf a o ho
    simp only [CtxHeap.load, ho]
    cases o with
    | backgroundCtx => exact ⟨_, rfl⟩
    | todoCtx => exact ⟨_, rfl⟩
    | cancelCtx parent =>
      have hp : parent < a := by simpa [CtxObject.parentBelow] using hb
      obtain ⟨c, hc⟩ := ih parent (Nat.lt_trans hp ha) (by omega)
      exact ⟨Context.cancelCtx c, by simp only [hc, Option.map_some']⟩
    | valueCtx parent key val =>
      have hp : parent < a := by simpa [CtxObject.parentBelow] using hb
      obtain ⟨c, hc⟩ := ih parent (Nat.lt_trans hp ha) (by omega)
      exact ⟨Context.valueCtx c key val, by simp only [hc, Option.map_some']⟩

theorem load_mono (h : CtxHeap) :
    ∀ (fuel a : Nat) (c : Context), h.load fuel a = some c →
      ∀ fuel2, fuel ≤ fuel2 → h.load fuel2 a = some c := by
  intro fuel
  induction fuel with
  | zero => intro a c hc; simp [CtxHeap.load] at hc
  | succ fuel ih =>
    intro a c hc fuel2 hle
    obtain ⟨f, rfl⟩ : ∃ f, fuel2 = f + 1 := ⟨fuel2 - 1, by omega⟩
    have hf : fuel ≤ f := by omega
    simp only [CtxHeap.load] at hc ⊢
    cases ho : h[a]? with
    | none => simp [ho] at hc
    | some o =>
      rw [ho] at hc
      cases o with
      | backgroundCtx => exact hc
      | todoCtx => exact hc
      | cancelCtx parent =>
        cases hl : h.load fuel parent with
        | none => simp [hl] at hc
        | some c0 =>
          simp only [hl, Option.map_some'] at hc
          simp only [ih parent c0 hl f hf, Option.map_some']
          exact hc
      | valueCtx parent key val =>
        cases hl : h.load fuel parent with
        | none => simp [hl] at hc
        | some c0 =>
          simp only [hl, Option.map_some'] at hc
          simp only [ih parent c0 hl f hf, Option.map_some']
          exact hc

/-- The derivation on references agrees with the derivation on chains: the
object it allocates denotes the chain that ContextWithCorrelationID returns for
the chain denoted by the parent. -/
theorem ContextWithCorrelationIDRef_denotes (xid : Nat → String) (h : CtxHeap)
    (hwf : h.wellFormed = true) (parent : Nat) (hp : parent < h.length)
    (ids : List String) (n : Nat) :
    ∃ h2 child m c c2,
      ContextWithCorrelationIDRef xid h (some parent) ids n = Except.ok (h2, child, m)
      ∧ h.load (parent + 1) parent = some c
      ∧ h2.load (child + 1) child = some c2
      ∧ ContextWithCorrelationID xid (some c) ids n = Except.ok (c2, m) := by
  obtain ⟨c, hc⟩ := load_some h hwf (parent + 1) parent hp (Nat.lt_succ_self parent)
  obtain ⟨s, k, hv⟩ := ContextWithCorrelationID_total xid c ids n
  refine ⟨h ++ [CtxObject.valueCtx parent correlationIDKey (GoAny.string s)], h.length, k, c,
    Context.valueCtx c correlationIDKey (GoAny.string s), ?_, hc, ?_, hv⟩
  · simp only [ContextWithCorrelationID, WithValue_correlationIDKey, Except.ok.injEq,
      Prod.mk.injEq, Context.valueCtx.injEq, GoAny.string.injEq, true_and] at hv
    simp only [ContextWithCorrelationIDRef, WithValueRef, correlationIDKey, hv.1, hv.2]
    rfl
  · have hc2 : h.load h.length parent = some c :=
      load_mono h (parent + 1) parent c hc h.length (by omega)
    simp only [CtxHeap.load, List.getElem?_concat_length,
      load_append h hwf _ h.length parent hp, hc2, Option.map_some']

/-- The derivation on references allocates exactly one object, a valueCtx
under the correlation key whose parent is the given address. -/
theorem ContextWithCorrelationIDRef_total (xid : Nat → String) (h : CtxHeap) (parent : Nat)
    (ids : List String) (n : Nat) :
    ∃ s k, ContextWithCorrelationIDRef xid h (some parent) ids n
      = Except.ok (h ++ [CtxObject.valueCtx parent correlationIDKey (GoAny.string s)],
          h.length, k) := by
  refine ⟨_, _, rfl⟩

/-- The handler never fails by itself: for every request there is a request
with a context that it hands to the inner handler, whatever that handler is. -/
theorem WithCorrelationID_delegates (xid : Nat → String) (r : Request) (n : Nat) :
    ∃ (r2 : Request) (k : Nat), ∀ (ρ : Type) (next : Handler ρ) (w : ResponseWriter),
      (WithCorrelationID xid next).ServeHTTP w r n = next.ServeHTTP w r2 k := by
  obtain ⟨s, k, hv⟩ := ContextWithCorrelationID_total xid r.Context
    [(if Header.Get r.Header correlationIDHeaderName = "" then GenerateID xid n
      else (Header.Get r.Header correlationIDHeaderName, n)).1]
    (if Header.Get r.Header correlationIDHeaderName = "" then GenerateID xid n
      else (Header.Get r.Header correlationIDHeaderName, n)).2
  refine ⟨{ r with ctx := some (Context.valueCtx r.Context correlationIDKey (GoAny.string s)) },
    k, ?_⟩
  intro ρ next w
  simp only [WithCorrelationID, HandlerFunc, hv, Request.WithContext]

/-! ## The claims -/

/-- C1 (identity preservation): for every parent context, carrying a correlation
ID or not, and every non-empty string s, deriving a context with candidate s
succeeds, draws no identifier, and ID of the derived context is s. -/
theorem C1_identity_preservation (xid : Nat → String) (ctx : Context) (s : String) (n : Nat)
    (hs : s ≠ "") :
    ∃ child, ContextWithCorrelationID xid (some ctx) [s] n = Except.ok (child, n)
      ∧ ID (some child) = Except.ok s := by
  refine ⟨Context.valueCtx ctx correlationIDKey (GoAny.string s), ?_, ?_⟩
  · exact ContextWithCorrelationID_candidate xid ctx s [] n hs
  · exact ID_valueCtx_string ctx s

theorem C1_identity_preservation_witness :
    "corrID-123" ≠ "" ∧
    ∃ child, ContextWithCorrelationID sampleXid
        (some (Context.valueCtx Context.background correlationIDKey (GoAny.string "old")))
        ["corrID-123"] 0 = Except.ok (child, 0)
      ∧ ID (some child) = Except.ok "corrID-123" :=
  ⟨by decide, C1_identity_preservation sampleXid
    (Context.valueCtx Context.background correlationIDKey (GoAny.string "old"))
    "corrID-123" 0 (by decide)⟩

/-- C2 (non-empty invariant): provided the generator returns non-empty
identifiers, for every parent context and every list of candidates (none, the
empty string, any string) the derivation succeeds and ID of the derived context
is not the empty string. -/
theorem C2_nonempty_invariant (xid : Nat → String) (hgen : XidNonEmpty xid) (parent : Context)
    (ids : List String) (n : Nat) :
    ∃ child m s, ContextWithCorrelationID xid (some parent) ids n = Except.ok (child, m)
      ∧ ID (some child) = Except.ok s ∧ s ≠ "" := by
  cases ids with
  | nil =>
    exact ⟨_, _, xid n, ContextWithCorrelationID_generated xid parent [] n (Or.inl rfl),
      ID_valueCtx_string parent (xid n), hgen n⟩
  | cons a rest =>
    by_cases ha : a = ""
    · subst ha
      exact ⟨_, _, xid n,
        ContextWithCorrelationID_generated xid parent ("" :: rest) n (Or.inr rfl),
        ID_valueCtx_string parent (xid n), hgen n⟩
    · exact ⟨_, _, a, ContextWithCorrelationID_candidate xid parent a rest n ha,
        ID_valueCtx_string parent a, ha⟩

theorem sampleXid_nonempty : XidNonEmpty sampleXid := by
  intro k
  unfold sampleXid
  split <;> decide

theorem C2_nonempty_invariant_witness :
    XidNonEmpty sampleXid ∧
    ∃ child m s, ContextWithCorrelationID sampleXid (some Context.background) [""] 0
        = Except.ok (child, m)
      ∧ ID (some child) = Except.ok s ∧ s ≠ "" :=
  ⟨sampleXid_nonempty,
    C2_nonempty_invariant sampleXid sampleXid_nonempty Context.background [""] 0⟩

/-- C3 (generation on empty or absent candidate): for every parent context,
also one that carries a correlation ID, a call with no candidate and a call
with the empty string both succeed, draw exactly one identifier, and bind it:
ID of the derived context is the value GenerateID returns for that call, which
does not depend on the parent and is not the empty string. -/
theorem C3_generation_on_empty_or_absent (xid : Nat → String) (hgen : XidNonEmpty xid)
    (ctx : Context) (ids : List String) (n : Nat) (hids : ids = [] ∨ ids = [""]) :
    ∃ child, ContextWithCorrelationID xid (some ctx) ids n
        = Except.ok (child, (GenerateID xid n).2)
      ∧ ID (some child) = Except.ok (GenerateID xid n).1
      ∧ (GenerateID xid n).1 ≠ "" := by
  refine ⟨Context.valueCtx ctx correlationIDKey (GoAny.string (xid n)), ?_, ?_, hgen n⟩
  · apply ContextWithCorrelationID_generated
    rcases hids with h | h
    · exact Or.inl h
    · exact Or.inr (by rw [h]; rfl)
  · exact ID_valueCtx_string ctx (xid n)

theorem C3_generation_on_empty_or_absent_witness :
    XidNonEmpty sampleXid ∧ (([""] : List String) = [] ∨ ([""] : List String) = [""]) ∧
    ∃ child, ContextWithCorrelationID sampleXid
        (some (Context.valueCtx Context.background correlationIDKey (GoAny.string "old")))
        [""] 0 = Except.ok (child, (GenerateID sampleXid 0).2)
      ∧ ID (some child) = Except.ok (GenerateID sampleXid 0).1
      ∧ (GenerateID sampleXid 0).1 ≠ "" :=
  ⟨sampleXid_nonempty, Or.inr rfl,
    C3_generation_on_empty_or_absent sampleXid sampleXid_nonempty
      (Context.valueCtx Context.background correlationIDKey (GoAny.string "old"))
      [""] 0 (Or.inr rfl)⟩

/-- C4 (absence sentinel): for every context in which no node binds the
correlation key, the background context and every context built from it by
binding other keys among them, ID returns the empty string and does not
panic. -/
theorem C4_absence_sentinel (ctx : Context) (h : ctx.binds correlationIDKey = false) :
    ID (some ctx) = Except.ok "" := by
  simp [ID, Value_of_binds_false ctx correlationIDKey h]

theorem C4_absence_sentinel_witness :
    (Context.valueCtx (Context.cancelCtx Context.background) (GoAny.int 1234097)
        (GoAny.string "x")).binds correlationIDKey = false ∧
    ID (some (Context.valueCtx (Context.cancelCtx Context.background) (GoAny.int 1234097)
        (GoAny.string "x"))) = Except.ok "" :=
  ⟨by decide, C4_absence_sentinel _ (by decide)⟩

/-- C5 (middleware header adoption): for every inbound request whose
"Correlation-ID" header has the non-empty value s there is a request r2 with
ID of its context equal to s such that, for every inner handler and every
writer, serving the request through WithCorrelationID is serving r2 by the
inner handler, with no identifier drawn. -/
theorem C5_middleware_header_adoption (xid : Nat → String) (r : Request) (n : Nat) (s : String)
    (hget : Header.Get r.Header correlationIDHeaderName = s) (hs : s ≠ "") :
    ∃ r2 : Request,
      (∀ (ρ : Type) (next : Handler ρ) (w : ResponseWriter),
        (WithCorrelationID xid next).ServeHTTP w r n = next.ServeHTTP w r2 n)
      ∧ ID (some r2.Context) = Except.ok s := by
  refine ⟨{ r with
    ctx := some (Context.valueCtx r.Context correlationIDKey (GoAny.string s)) }, ?_, ?_⟩
  · intro ρ next w
    exact WithCorrelationID_adopts xid next w r n s hget hs
  · exact ID_valueCtx_string r.Context s

theorem C5_middleware_header_adoption_witness :
    Header.Get sampleRequest.Header correlationIDHeaderName = "corrID-123" ∧
    "corrID-123" ≠ "" ∧
    ∃ r2 : Request,
      (∀ (ρ : Type) (next : Handler ρ) (w : ResponseWriter),
        (WithCorrelationID sampleXid next).ServeHTTP w sampleRequest 7 = next.ServeHTTP w r2 7)
      ∧ ID (some r2.Context) = Except.ok "corrID-123" :=
  ⟨by decide, by decide,
    C5_middleware_header_adoption sampleXid sampleRequest 7 "corrID-123" (by decide) (by decide)⟩

/-- C6 (middleware guarantee): provided the generator returns non-empty
identifiers, for every inbound request (header present, absent, present with
an empty value, or a nil header map) there is a request r2 whose context has a
non-empty ID such that, for every inner handler and writer, serving through
WithCorrelationID is serving r2 by the inner handler; when the header is absent
or empty that ID is the value GenerateID returns for the call. -/
theorem C6_middleware_guarantee (xid : Nat → String) (hgen : XidNonEmpty xid) (r : Request)
    (n : Nat) :
    ∃ (r2 : Request) (m : Nat) (s : String),
      (∀ (ρ : Type) (next : Handler ρ) (w : ResponseWriter),
        (WithCorrelationID xid next).ServeHTTP w r n = next.ServeHTTP w r2 m)
      ∧ ID (some r2.Context) = Except.ok s ∧ s ≠ ""
      ∧ (Header.Get r.Header correlationIDHeaderName = "" →
          s = (GenerateID xid n).1 ∧ m = (GenerateID xid n).2) := by
  by_cases hget : Header.Get r.Header correlationIDHeaderName = ""
  · refine ⟨{ r with
      ctx := some (Context.valueCtx r.Context correlationIDKey (GoAny.string (xid n))) },
      n + 1, xid n, ?_, ID_valueCtx_string r.Context (xid n), hgen n, fun _ => ⟨rfl, rfl⟩⟩
    intro ρ next w
    exact WithCorrelationID_generates xid next w r n hget (hgen n)
  · refine ⟨{ r with
      ctx := some (Context.valueCtx r.Context correlationIDKey
        (GoAny.string (Header.Get r.Header correlationIDHeaderName))) },
      n, Header.Get r.Header correlationIDHeaderName, ?_,
      ID_valueCtx_string r.Context _, hget, fun h => absurd h hget⟩
    intro ρ next w
    exact WithCorrelationID_adopts xid next w r n _ rfl hget

theorem C6_middleware_guarantee_witness :
    XidNonEmpty sampleXid ∧
    ∃ (r2 : Request) (m : Nat) (s : String),
      (∀ (ρ : Type) (next : Handler ρ) (w : ResponseWriter),
        (WithCorrelationID sampleXid next).ServeHTTP w bareRequest 0 = next.ServeHTTP w r2 m)
      ∧ ID (some r2.Context) = Except.ok s ∧ s ≠ ""
      ∧ (Header.Get bareRequest.Header correlationIDHeaderName = "" →
          s = (GenerateID sampleXid 0).1 ∧ m = (GenerateID sampleXid 0).2) :=
  ⟨sampleXid_nonempty, C6_middleware_guarantee sampleXid sampleXid_nonempty bareRequest 0⟩

/-- C7 (outbound attach with an existing ID): for every context whose ID is
the non-empty string s and every request with a non-nil header map, whatever
it held under "Correlation-ID", SetCorrelationID succeeds, draws no identifier,
and afterwards the values of the header are exactly the single value s, so
that Get returns s. -/
theorem C7_outbound_attach_existing (xid : Nat → String) (ctx : Context) (r : Request)
    (m : HeaderMap) (n : Nat) (s : String)
    (hid : ID (some ctx) = Except.ok s) (hs : s ≠ "") (hm : r.Header = some m) :
    ∃ r2 : Request, SetCorrelationID xid (some ctx) r n = Except.ok (r2, n)
      ∧ Header.Values r2.Header correlationIDHeaderName = [s]
      ∧ Header.Get r2.Header correlationIDHeaderName = s := by
  obtain ⟨h, hset, hvals, hgot⟩ := Header_Values_after_Set m correlationIDHeaderName s
  have hlen : ¬ len s = 0 := fun h0 => hs ((len_eq_zero_iff s).1 h0)
  refine ⟨{ r with Header := h }, ?_, hvals, hgot⟩
  simp [SetCorrelationID, hid, hlen, hm, hset]

theorem C7_outbound_attach_existing_witness :
    ID (some (Context.valueCtx Context.background correlationIDKey (GoAny.string "corrID-123")))
      = Except.ok "corrID-123" ∧
    "corrID-123" ≠ "" ∧
    { sampleRequest with
        Header := some [("Correlation-Id", ["a", "b"]), ("Correlation-Id", ["c"])] }.Header
      = some [("Correlation-Id", ["a", "b"]), ("Correlation-Id", ["c"])] ∧
    ∃ r2 : Request,
      SetCorrelationID sampleXid
        (some (Context.valueCtx Context.background correlationIDKey (GoAny.string "corrID-123")))
        { sampleRequest with
          Header := some [("Correlation-Id", ["a", "b"]), ("Correlation-Id", ["c"])] } 3
        = Except.ok (r2, 3)
      ∧ Header.Values r2.Header correlationIDHeaderName = ["corrID-123"]
      ∧ Header.Get r2.Header correlationIDHeaderName = "corrID-123" :=
  ⟨rfl, by decide, rfl,
    C7_outbound_attach_existing sampleXid _ _ _ 3 "corrID-123" rfl (by decide) rfl⟩

/-- C8 (outbound attach with an empty context): provided the generator returns
non-empty identifiers, for every context whose ID is the empty string and every
request with a non-nil header map, SetCorrelationID succeeds, draws one
identifier, and afterwards the "Correlation-ID" header is that identifier, the
value GenerateID returns for the call, which is not the empty string. -/
theorem C8_outbound_attach_empty_context (xid : Nat → String) (hgen : XidNonEmpty xid)
    (ctx : Context) (r : Request) (m : HeaderMap) (n : Nat)
    (hid : ID (some ctx) = Except.ok "") (hm : r.Header = some m) :
    ∃ r2 : Request, SetCorrelationID xid (some ctx) r n = Except.ok (r2, (GenerateID xid n).2)
      ∧ Header.Get r2.Header correlationIDHeaderName = (GenerateID xid n).1
      ∧ Header.Values r2.Header correlationIDHeaderName = [(GenerateID xid n).1]
      ∧ (GenerateID xid n).1 ≠ "" := by
  obtain ⟨h, hset, hvals, hgot⟩ := Header_Values_after_Set m correlationIDHeaderName (xid n)
  have h0 : len "" = 0 := (len_eq_zero_iff "").2 rfl
  refine ⟨{ r with Header := h }, ?_, hgot, hvals, hgen n⟩
  simp [SetCorrelationID, hid, h0, hm, hset, GenerateID]

theorem C8_outbound_attach_empty_context_witness :
    XidNonEmpty sampleXid ∧
    ID (some Context.background) = Except.ok "" ∧
    sampleRequest.Header
      = some [("Accept", ["text/plain"]), ("Correlation-Id", ["corrID-123"])] ∧
    ∃ r2 : Request,
      SetCorrelationID sampleXid (some Context.background) sampleRequest 1
        = Except.ok (r2, (GenerateID sampleXid 1).2)
      ∧ Header.Get r2.Header correlationIDHeaderName = (GenerateID sampleXid 1).1
      ∧ Header.Values r2.Header correlationIDHeaderName = [(GenerateID sampleXid 1).1]
      ∧ (GenerateID sampleXid 1).1 ≠ "" :=
  ⟨sampleXid_nonempty, rfl, rfl,
    C8_outbound_attach_empty_context sampleXid sampleXid_nonempty Context.background
      sampleRequest _ 1 rfl rfl⟩

/-- C9 (immutability of the parent): in a well-formed store of context objects,
for every parent address, every list of candidates and every key, deriving a
child succeeds, allocates the child at a new address and writes no existing
object: every context that existed before, the parent in particular, denotes
the same chain, returns the same value for every key and has the same ID
after the call as before. -/
theorem C9_parent_immutable (xid : Nat → String) (h : CtxHeap) (hwf : h.wellFormed = true)
    (parent : Nat) (hp : parent < h.length) (ids : List String) (n : Nat) :
    ∃ (h2 : CtxHeap) (child m : Nat),
      ContextWithCorrelationIDRef xid h (some parent) ids n = Except.ok (h2, child, m)
      ∧ h2.wellFormed = true
      ∧ h.length ≤ child
      ∧ (∀ a, a < h.length → h2[a]? = h[a]?)
      ∧ (∀ a, a < h.length → h2.load (a + 1) a = h.load (a + 1) a)
      ∧ (∀ a, a < h.length → ∀ k,
          (∃ v, h.ValueAt a k = some v) ∧ h2.ValueAt a k = h.ValueAt a k)
      ∧ (∃ r, h.IDAt parent = some r) ∧ h2.IDAt parent = h.IDAt parent := by
  obtain ⟨s, k, hrun⟩ := ContextWithCorrelationIDRef_total xid h parent ids n
  have hload : ∀ a, a < h.length →
      CtxHeap.load (h ++ [CtxObject.valueCtx parent correlationIDKey (GoAny.string s)])
        (a + 1) a = h.load (a + 1) a :=
    fun a ha => load_append h hwf _ (a + 1) a ha
  refine ⟨_, _, _, hrun, ?_, Nat.le_refl _, ?_, hload, ?_, ?_, ?_⟩
  · exact wellFormed_append h hwf _ (by simpa [CtxObject.parentBelow] using hp)
  · intro a ha
    exact List.getElem?_append_left ha
  · intro a ha key
    obtain ⟨c, hc⟩ := load_some h hwf (a + 1) a ha (Nat.lt_succ_self a)
    refine ⟨⟨c.Value key, by simp [CtxHeap.ValueAt, hc]⟩, ?_⟩
    simp only [CtxHeap.ValueAt, hload a ha]
  · obtain ⟨c, hc⟩ := load_some h hwf (parent + 1) parent hp (Nat.lt_succ_self parent)
    exact ⟨ID (some c), by simp [CtxHeap.IDAt, hc]⟩
  · simp only [CtxHeap.IDAt, hload parent hp]

theorem C9_parent_immutable_witness :
    sampleHeap.wellFormed = true ∧ 2 < sampleHeap.length ∧
    ∃ (h2 : CtxHeap) (child m : Nat),
      ContextWithCorrelationIDRef sampleXid sampleHeap (some 2) [] 0
        = Except.ok (h2, child, m)
      ∧ h2.wellFormed = true
      ∧ sampleHeap.length ≤ child
      ∧ (∀ a, a < sampleHeap.length → h2[a]? = sampleHeap[a]?)
      ∧ (∀ a, a < sampleHeap.length → h2.load (a + 1) a = sampleHeap.load (a + 1) a)
      ∧ (∀ a, a < sampleHeap.length → ∀ k,
          (∃ v, sampleHeap.ValueAt a k = some v) ∧ h2.ValueAt a k = sampleHeap.ValueAt a k)
      ∧ (∃ r, sampleHeap.IDAt 2 = some r) ∧ h2.IDAt 2 = sampleHeap.IDAt 2 :=
  ⟨by decide, by decide,
    C9_parent_immutable sampleXid sampleHeap (by decide) 2 (by decide) [] 0⟩

/-! ### Contexts of any type -/

theorem toAny_valueCtx (p : Context) (k v : GoAny) :
    (Context.valueCtx p k v).toAny
      = { Value := fun key => if k = key then Except.ok v else p.toAny.Value key } := by
  simp only [Context.toAny, Context.Value]
  congr
  funext key
  split <;> rfl

/-- On a parent built by package context, WithValueAny is WithValue. -/
theorem WithValueAny_toAny (parent : Option Context) (k v : GoAny) :
    WithValueAny (parent.map Context.toAny) k v = (WithValue parent k v).map Context.toAny := by
  cases parent with
  | none => rfl
  | some p =>
    by_cases hk : k = GoAny.nil
    · simp [WithValueAny, WithValue, hk, Except.map]
    · by_cases hc : k.comparable = false
      · simp [WithValueAny, WithValue, hk, hc, Except.map]
      · simp [WithValueAny, WithValue, hk, hc, Except.map, toAny_valueCtx]

/-- On a parent built by package context, ContextWithCorrelationIDAny is
ContextWithCorrelationID. -/
theorem ContextWithCorrelationIDAny_toAny (xid : Nat → String) (parent : Option Context)
    (ids : List String) (n : Nat) :
    ContextWithCorrelationIDAny xid (parent.map Context.toAny) ids n
      = (ContextWithCorrelationID xid parent ids n).map (fun q => (q.1.toAny, q.2)) := by
  simp only [ContextWithCorrelationIDAny, ContextWithCorrelationID, WithValueAny_toAny]
  cases WithValue parent correlationIDKey _ <;> rfl

/-- On a context built by package context, and on nil, IDAny is ID. -/
theorem IDAny_toAny (ctx : Option Context) : IDAny (ctx.map Context.toAny) = ID ctx := by
  cases ctx with
  | none => rfl
  | some c =>
    simp only [Option.map_some', IDAny, ID, Context.toAny]
    cases c.Value correlationIDKey <;> rfl

/-- On a context built by package context and a valid request pointer,
SetCorrelationIDAny is SetCorrelationID. -/
theorem SetCorrelationIDAny_toAny (xid : Nat → String) (ctx : Option Context) (r : Request)
    (n : Nat) :
    SetCorrelationIDAny xid (ctx.map Context.toAny) (some r.toAny) n
      = (SetCorrelationID xid ctx r n).map (fun q => (q.1.toAny, q.2)) := by
  simp only [SetCorrelationIDAny, SetCorrelationID, IDAny_toAny]
  cases ID ctx with
  | error e => rfl
  | ok id =>
    simp only [Request.toAny]
    cases Header.Set r.Header correlationIDHeaderName
      (if len id = 0 then GenerateID xid n else (id, n)).1 <;> rfl

theorem Context_toAny_of_request (r : Request) : r.toAny.Context = r.Context.toAny := by
  simp only [RequestAny.Context, Request.Context, Request.toAny]
  cases r.ctx <;> rfl

/-- On a request whose context was built by package context and an inner
handler that is not nil, WithCorrelationIDAny is WithCorrelationID. -/
theorem WithCorrelationIDAny_toAny {ρ : Type} (xid : Nat → String) (nx : HandlerAny ρ)
    (w : ResponseWriter) (r : Request) (n : Nat) :
    (WithCorrelationIDAny xid (some nx)).ServeHTTP w (some r.toAny) n
      = (WithCorrelationID xid
          (HandlerFunc (fun w2 r2 n2 => nx.ServeHTTP w2 (some r2.toAny) n2))).ServeHTTP w r n := by
  have hctx := ContextWithCorrelationIDAny_toAny xid (some r.Context)
    [(if Header.Get r.Header correlationIDHeaderName = "" then GenerateID xid n
      else (Header.Get r.Header correlationIDHeaderName, n)).1]
    (if Header.Get r.Header correlationIDHeaderName = "" then GenerateID xid n
      else (Header.Get r.Header correlationIDHeaderName, n)).2
  simp only [Option.map_some'] at hctx
  simp only [WithCorrelationIDAny, WithCorrelationID, HandlerFunc, Context_toAny_of_request]
  have hhead : r.toAny.Header = r.Header := rfl
  rw [hhead, hctx]
  cases ContextWithCorrelationID xid (some r.Context)
    [(if Header.Get r.Header correlationIDHeaderName = "" then GenerateID xid n
      else (Header.Get r.Header correlationIDHeaderName, n)).1]
    (if Header.Get r.Header correlationIDHeaderName = "" then GenerateID xid n
      else (Header.Get r.Header correlationIDHeaderName, n)).2 with
  | error e => rfl
  | ok q => rfl

theorem IDAny_returns_iff (ctx : Option AnyContext) :
    (∃ s, IDAny ctx = Except.ok s)
      ↔ ∃ c v, ctx = some c ∧ c.Value correlationIDKey = Except.ok v := by
  cases ctx with
  | none => simp [IDAny]
  | some c =>
    cases hv : c.Value correlationIDKey with
    | error e => simp [IDAny, hv]
    | ok v =>
      constructor
      · intro _
        exact ⟨c, v, rfl, hv⟩
      · intro _
        cases v <;> simp [IDAny, hv]

/-- C10, as stated, fails: ID and SetCorrelationID panic on the nil context,
SetCorrelationID panics on a request whose header map is nil and on a nil
request, ID and SetCorrelationID panic on a context of a user-defined type
whose method Value panics, ContextWithCorrelationID panics on the nil parent,
and the handler returned by WithCorrelationID panics on a nil request and with
a nil inner handler. -/
theorem C10_totality_counterexample :
    ID none = Except.error Panic.nilDereference
    ∧ SetCorrelationID sampleXid none sampleRequest 0 = Except.error Panic.nilDereference
    ∧ SetCorrelationID sampleXid (some Context.background)
        { Method := "GET", URL := "/things", Header := none, Body := "", ctx := none } 0
      = Except.error Panic.nilMapAssignment
    ∧ IDAny (some panickingContext)
      = Except.error (Panic.raised "Value is not implemented")
    ∧ SetCorrelationIDAny sampleXid (some panickingContext) (some sampleRequest.toAny) 0
      = Except.error (Panic.raised "Value is not implemented")
    ∧ SetCorrelationIDAny sampleXid (some Context.background.toAny) none 0
      = Except.error Panic.nilDereference
    ∧ ContextWithCorrelationIDAny sampleXid none ["corrID-123"] 0
      = Except.error Panic.nilParent
    ∧ (WithCorrelationIDAny sampleXid
        (some ({ ServeHTTP := fun _ _ _ => Except.ok () } : HandlerAny Unit))).ServeHTTP 0 none 0
      = Except.error Panic.nilDereference
    ∧ (WithCorrelationIDAny sampleXid (none : Option (HandlerAny Unit))).ServeHTTP 0
        (some sampleRequest.toAny) 0
      = Except.error Panic.nilDereference :=
  ⟨rfl, rfl, rfl, rfl, rfl, rfl, rfl, rfl, rfl⟩

/-- C10, amended (the inputs on which each operation returns): with a generator
that returns, ContextWithCorrelationID returns normally exactly when the parent
is not nil; ID returns normally exactly when the context is not nil and its
method Value returns for the correlation key; SetCorrelationID returns normally
exactly when ID does and the request is not nil and has a header map that is
not nil; the handler returned by WithCorrelationID panics on a nil request and
with a nil inner handler, and otherwise hands one request to the inner handler
and returns what that handler returns, whatever the header map and the context
of the request are. On every context built by package context
ContextWithCorrelationID and ID return normally, and so does SetCorrelationID
on a request whose header map is not nil. -/
theorem C10_totality_domain (xid : Nat → String) (parent ctx : Option AnyContext)
    (ids : List String) (r : Option RequestAny) (n : Nat) :
    ((∃ out, ContextWithCorrelationIDAny xid parent ids n = Except.ok out) ↔ parent ≠ none)
    ∧ ((∃ s, IDAny ctx = Except.ok s)
        ↔ ∃ c v, ctx = some c ∧ c.Value correlationIDKey = Except.ok v)
    ∧ ((∃ out, SetCorrelationIDAny xid ctx r n = Except.ok out)
        ↔ (∃ c v, ctx = some c ∧ c.Value correlationIDKey = Except.ok v)
          ∧ ∃ r0 m, r = some r0 ∧ r0.Header = some m)
    ∧ (r = none → ∀ (ρ : Type) (next : Option (HandlerAny ρ)) (w : ResponseWriter),
        (WithCorrelationIDAny xid next).ServeHTTP w r n = Except.error Panic.nilDereference)
    ∧ (∀ r0, r = some r0 →
        (∀ (ρ : Type) (w : ResponseWriter),
          (WithCorrelationIDAny xid (none : Option (HandlerAny ρ))).ServeHTTP w r n
            = Except.error Panic.nilDereference)
        ∧ ∃ (r2 : RequestAny) (k : Nat),
            ∀ (ρ : Type) (nx : HandlerAny ρ) (w : ResponseWriter),
              (WithCorrelationIDAny xid (some nx)).ServeHTTP w r n
                = nx.ServeHTTP w (some r2) k)
    ∧ (∀ c : Context,
        (∃ child k, ContextWithCorrelationID xid (some c) ids n = Except.ok (child, k))
        ∧ (∃ s, ID (some c) = Except.ok s ∧ IDAny (some c.toAny) = Except.ok s)
        ∧ ∀ (rq : Request) (m : HeaderMap), rq.Header = some m →
            ∃ r2 k, SetCorrelationID xid (some c) rq n = Except.ok (r2, k)) := by
  have hidret : ∀ c : Context, ∃ s, ID (some c) = Except.ok s := by
    intro c
    simp only [ID]
    split
    · exact ⟨_, rfl⟩
    · exact ⟨_, rfl⟩
  refine ⟨?_, IDAny_returns_iff ctx, ?_, ?_, ?_, ?_⟩
  · cases parent with
    | none => simp [ContextWithCorrelationIDAny, WithValueAny]
    | some p =>
      refine ⟨fun _ => by simp, fun _ => ⟨_, rfl⟩⟩
  · rw [← IDAny_returns_iff ctx]
    cases hid : IDAny ctx with
    | error e => simp [SetCorrelationIDAny, hid]
    | ok id =>
      cases r with
      | none => simp [SetCorrelationIDAny, hid]
      | some r0 =>
        cases hh : r0.Header with
        | none => simp [SetCorrelationIDAny, hid, hh, Header.Set]
        | some m => simp [SetCorrelationIDAny, hid, hh, Header.Set]
  · intro hr ρ next w
    subst hr
    rfl
  · intro r0 hr
    subst hr
    refine ⟨fun ρ w => ?_, ?_⟩
    · simp only [WithCorrelationIDAny]
      rfl
    · refine ⟨_, _, fun ρ nx w => rfl⟩
  · intro c
    refine ⟨?_, ?_, ?_⟩
    · obtain ⟨s, k, hv⟩ := ContextWithCorrelationID_total xid c ids n
      exact ⟨_, _, hv⟩
    · obtain ⟨s, hs⟩ := hidret c
      refine ⟨s, hs, ?_⟩
      have h := IDAny_toAny (some c)
      simp only [Option.map_some'] at h
      rw [h, hs]
    · intro rq m hm
      obtain ⟨s, hs⟩ := hidret c
      simp only [SetCorrelationID, hs, hm, Header.Set]
      exact ⟨_, _, rfl⟩

/-- C12 (key isolation): for every context, every key accepted by
context.WithValue (not nil, of a comparable type) that is not correlationIDKey,
the plain int 1234097 and every string key among them, and every value,
binding the key succeeds and leaves ID as it was. -/
theorem C12_key_isolation (ctx : Context) (k v : GoAny) (hk : k ≠ correlationIDKey)
    (hnil : k ≠ GoAny.nil) (hcmp : k.comparable = true) :
    ∃ c2, WithValue (some ctx) k v = Except.ok c2 ∧ ID (some c2) = ID (some ctx)
      ∧ c2.Value correlationIDKey = ctx.Value correlationIDKey := by
  refine ⟨Context.valueCtx ctx k v, ?_, ?_, ?_⟩
  · simp [WithValue, hnil, hcmp]
  · simp only [ID, Context.Value, if_neg hk]
  · simp only [Context.Value, if_neg hk]

theorem C12_key_isolation_witness :
    GoAny.int 1234097 ≠ correlationIDKey ∧ GoAny.int 1234097 ≠ GoAny.nil ∧
    (GoAny.int 1234097).comparable = true ∧
    ∃ c2, WithValue
        (some (Context.valueCtx Context.background correlationIDKey (GoAny.string "corrID-123")))
        (GoAny.int 1234097) (GoAny.string "other") = Except.ok c2
      ∧ ID (some c2)
        = ID (some (Context.valueCtx Context.background correlationIDKey
            (GoAny.string "corrID-123")))
      ∧ c2.Value correlationIDKey
        = (Context.valueCtx Context.background correlationIDKey
            (GoAny.string "corrID-123")).Value correlationIDKey :=
  ⟨by decide, by decide, rfl,
    C12_key_isolation _ (GoAny.int 1234097) (GoAny.string "other") (by decide) (by decide) rfl⟩

/-- C13 (derivation is exactly one binding): for every parent and every
non-empty string s, ContextWithCorrelationID returns what
context.WithValue(parent, correlationIDKey, s) returns, and draws no
identifier; for a non-nil parent that is the parent extended by the single
pair correlationIDKey -> s, so every other key reads in the child as in the
parent. -/
theorem C13_derivation_is_one_binding (xid : Nat → String) (parent : Option Context)
    (s : String) (n : Nat) (hs : s ≠ "") :
    ContextWithCorrelationID xid parent [s] n
      = (WithValue parent correlationIDKey (GoAny.string s)).map (fun c => (c, n))
    ∧ ∀ p, parent = some p →
        ContextWithCorrelationID xid parent [s] n
          = Except.ok (Context.valueCtx p correlationIDKey (GoAny.string s), n)
        ∧ ∀ k, k ≠ correlationIDKey →
            (Context.valueCtx p correlationIDKey (GoAny.string s)).Value k = p.Value k := by
  have hlen : ¬ len s = 0 := fun h => hs ((len_eq_zero_iff s).1 h)
  constructor
  · cases parent with
    | none => simp [ContextWithCorrelationID, WithValue, hlen, Except.map]
    | some p =>
      simp [ContextWithCorrelationID, WithValue_correlationIDKey, hlen, Except.map]
  · intro p hp
    subst hp
    refine ⟨ContextWithCorrelationID_candidate xid p s [] n hs, ?_⟩
    intro k hk
    simp only [Context.Value, if_neg (Ne.symm hk)]

theorem C13_derivation_is_one_binding_witness :
    "corrID-123" ≠ "" ∧
    (ContextWithCorrelationID sampleXid (some Context.background) ["corrID-123"] 5
      = (WithValue (some Context.background) correlationIDKey
          (GoAny.string "corrID-123")).map (fun c => (c, 5))
    ∧ ∀ p, some Context.background = some p →
        ContextWithCorrelationID sampleXid (some Context.background) ["corrID-123"] 5
          = Except.ok (Context.valueCtx p correlationIDKey (GoAny.string "corrID-123"), 5)
        ∧ ∀ k, k ≠ correlationIDKey →
            (Context.valueCtx p correlationIDKey (GoAny.string "corrID-123")).Value k
              = p.Value k) :=
  ⟨by decide,
    C13_derivation_is_one_binding sampleXid (some Context.background) "corrID-123" 5
      (by decide)⟩

/-- C14 (service-hop round trip): for every context whose ID is the non-empty
string s and every request with a non-nil header map, SetCorrelationID
succeeds, and when the request it leaves is served through WithCorrelationID,
every inner handler is served a request whose context has ID s: the header
name written is the header name read. -/
theorem C14_service_hop_round_trip (xid : Nat → String) (ctx : Context) (r : Request)
    (m : HeaderMap) (n : Nat) (s : String)
    (hid : ID (some ctx) = Except.ok s) (hs : s ≠ "") (hm : r.Header = some m) :
    ∃ r1 r2 : Request, SetCorrelationID xid (some ctx) r n = Except.ok (r1, n)
      ∧ (∀ (ρ : Type) (next : Handler ρ) (w : ResponseWriter),
          (WithCorrelationID xid next).ServeHTTP w r1 n = next.ServeHTTP w r2 n)
      ∧ ID (some r2.Context) = Except.ok s := by
  obtain ⟨h, hset, _, hgot⟩ := Header_Values_after_Set m correlationIDHeaderName s
  have hlen : ¬ len s = 0 := fun h0 => hs ((len_eq_zero_iff s).1 h0)
  have hrun : SetCorrelationID xid (some ctx) r n = Except.ok ({ r with Header := h }, n) := by
    simp [SetCorrelationID, hid, hlen, hm, hset]
  refine ⟨{ r with Header := h },
    { r with
      Header := h,
      ctx := some (Context.valueCtx (Request.Context { r with Header := h }) correlationIDKey
        (GoAny.string s)) }, hrun, ?_, ?_⟩
  · intro ρ next w
    exact WithCorrelationID_adopts xid next w { r with Header := h } n s hgot hs
  · exact ID_valueCtx_string _ s

theorem C14_service_hop_round_trip_witness :
    ID (some (Context.valueCtx Context.todo correlationIDKey (GoAny.string "corrID-123")))
      = Except.ok "corrID-123" ∧
    "corrID-123" ≠ "" ∧
    bareRequest.Header = some [("Accept", ["text/plain"]), ("Correlation-Id", [])] ∧
    ∃ r1 r2 : Request,
      SetCorrelationID sampleXid
        (some (Context.valueCtx Context.todo correlationIDKey (GoAny.string "corrID-123")))
        bareRequest 2 = Except.ok (r1, 2)
      ∧ (∀ (ρ : Type) (next : Handler ρ) (w : ResponseWriter),
          (WithCorrelationID sampleXid next).ServeHTTP w r1 2 = next.ServeHTTP w r2 2)
      ∧ ID (some r2.Context) = Except.ok "corrID-123" :=
  ⟨rfl, by decide, rfl,
    C14_service_hop_round_trip sampleXid _ bareRequest _ 2 "corrID-123" rfl (by decide) rfl⟩

/-- C17 (only the first candidate counts): for every parent and every
non-empty list of candidates s0, s1, ..., the call returns what the call with
the single candidate s0 returns; on a non-nil parent, when s0 is non-empty the
bound ID is s0 and no identifier is drawn, and when s0 is empty the bound ID is
the generated value, whatever the later candidates are. -/
theorem C17_only_first_candidate (xid : Nat → String) (parent : Option Context) (s0 : String)
    (rest : List String) (n : Nat) :
    ContextWithCorrelationID xid parent (s0 :: rest) n
      = ContextWithCorrelationID xid parent [s0] n
    ∧ (∀ p, parent = some p → s0 ≠ "" →
        ∃ child, ContextWithCorrelationID xid parent (s0 :: rest) n = Except.ok (child, n)
          ∧ ID (some child) = Except.ok s0)
    ∧ (∀ p, parent = some p → s0 = "" →
        ∃ child, ContextWithCorrelationID xid parent (s0 :: rest) n
            = Except.ok (child, (GenerateID xid n).2)
          ∧ ID (some child) = Except.ok (GenerateID xid n).1) := by
  refine ⟨?_, ?_, ?_⟩
  · simp [ContextWithCorrelationID]
  · intro p hp hs
    subst hp
    exact ⟨_, ContextWithCorrelationID_candidate xid p s0 rest n hs, ID_valueCtx_string p s0⟩
  · intro p hp hs
    subst hp
    subst hs
    exact ⟨_, ContextWithCorrelationID_generated xid p ("" :: rest) n (Or.inr rfl),
      ID_valueCtx_string p (xid n)⟩

/-- The request that the handler hands on: the request served, with a context
that extends the context of the request by one binding of the correlation
key. -/
theorem WithCorrelationID_request (xid : Nat → String) (r : Request) (n : Nat) :
    ∃ (s : String) (k : Nat), ∀ (ρ : Type) (next : Handler ρ) (w : ResponseWriter),
      (WithCorrelationID xid next).ServeHTTP w r n
        = next.ServeHTTP w
            { r with
              ctx := some (Context.valueCtx r.Context correlationIDKey (GoAny.string s)) }
            k := by
  obtain ⟨s, k, hv⟩ := ContextWithCorrelationID_total xid r.Context
    [(if Header.Get r.Header correlationIDHeaderName = "" then GenerateID xid n
      else (Header.Get r.Header correlationIDHeaderName, n)).1]
    (if Header.Get r.Header correlationIDHeaderName = "" then GenerateID xid n
      else (Header.Get r.Header correlationIDHeaderName, n)).2
  refine ⟨s, k, ?_⟩
  intro ρ next w
  simp only [WithCorrelationID, HandlerFunc, hv, Request.WithContext]

/-! ### The store of header maps and requests -/

theorem HeaderMap_index_assign_ne (m : HeaderMap) (k key : String) (v : List String)
    (hne : key ≠ k) : (m.assign k v).index key = m.index key := by
  have hfilter : List.lookup key (m.filter (fun e => e.1 ≠ k)) = List.lookup key m := by
    induction m with
    | nil => rfl
    | cons e rest ih =>
      obtain ⟨a, b⟩ := e
      simp only [decide_not] at ih ⊢
      by_cases hak : a = k
      · subst hak
        have hka : (key == a) = false := by simpa using hne
        simp [List.filter, List.lookup, hka, ih]
      · by_cases hkey : key = a
        · subst hkey
          simp [List.filter, List.lookup, hak]
        · have hka : (key == a) = false := by simpa using hkey
          simp [List.filter, List.lookup, hak, hka, ih]
  have hkk : (key == k) = false := by simpa using hne
  simp only [HeaderMap.index, HeaderMap.assign, List.lookup, hkk, hfilter]

theorem Store_wellFormed_ctxs (st : Store) (hwf : st.wellFormed = true) :
    st.ctxs.wellFormed = true := by
  simp only [Store.wellFormed, Bool.and_eq_true] at hwf
  exact hwf.1

theorem Store_wellFormed_request (st : Store) (hwf : st.wellFormed = true) (r : Nat)
    (ro : RequestObject) (hr : st.requests[r]? = some ro) :
    validRef ro.Header st.maps.length = true ∧ validRef ro.ctx st.ctxs.length = true := by
  simp only [Store.wellFormed, Bool.and_eq_true, List.all_eq_true] at hwf
  exact hwf.2 ro (List.mem_iff_getElem?.2 ⟨r, hr⟩)

/-- The object that a derivation allocates denotes the chain of its parent
extended by the new binding. -/
theorem load_derived (h : CtxHeap) (hwf : h.wellFormed = true) (p : Nat) (hp : p < h.length)
    (k v : GoAny) :
    CtxHeap.load (h ++ [CtxObject.valueCtx p k v]) (h.length + 1) h.length
      = (h.load (p + 1) p).map (fun c => Context.valueCtx c k v) := by
  obtain ⟨c, hc⟩ := load_some h hwf (p + 1) p hp (Nat.lt_succ_self p)
  have hc2 : h.load h.length p = some c := load_mono h (p + 1) p c hc h.length (by omega)
  rw [hc]
  simp only [CtxHeap.load, List.getElem?_concat_length, load_append h hwf _ h.length p hp,
    hc2]

theorem ContextWithCorrelationIDRef_candidate (xid : Nat → String) (h : CtxHeap) (parent : Nat)
    (s : String) (rest : List String) (n : Nat) (hs : s ≠ "") :
    ContextWithCorrelationIDRef xid h (some parent) (s :: rest) n
      = Except.ok (h ++ [CtxObject.valueCtx parent correlationIDKey (GoAny.string s)],
          h.length, n) := by
  have hlen : ¬ len s = 0 := fun h0 => hs ((len_eq_zero_iff s).1 h0)
  simp [ContextWithCorrelationIDRef, WithValueRef, correlationIDKey, GoAny.comparable, hlen]

/-- Method Request.Context on a well-formed store: the store grows by at most
one background object, stays well formed, and the address returned denotes the
context of the request. -/
theorem RequestContext_spec (st : Store) (hwf : st.wellFormed = true) (r : Nat)
    (ro : RequestObject) (hr : st.requests[r]? = some ro) :
    ∃ l : CtxHeap, (st.RequestContext ro).1 = { st with ctxs := st.ctxs ++ l }
      ∧ CtxHeap.wellFormed (st.ctxs ++ l) = true
      ∧ (st.RequestContext ro).2 < (st.ctxs ++ l).length
      ∧ CtxHeap.load (st.ctxs ++ l) ((st.RequestContext ro).2 + 1) (st.RequestContext ro).2
          = some (match st.loadContext ro.ctx with
              | some c => c
              | none => Context.background) := by
  have hctxs := Store_wellFormed_ctxs st hwf
  cases hctx : ro.ctx with
  | none =>
    refine ⟨[CtxObject.backgroundCtx], ?_, ?_, ?_, ?_⟩
    · simp only [Store.RequestContext, hctx]
    · exact wellFormed_append st.ctxs hctxs _ rfl
    · simp [Store.RequestContext, hctx]
    · simp [Store.RequestContext, hctx, CtxHeap.load, Store.loadContext]
  | some a =>
    have ha : a < st.ctxs.length := by
      have hv := (Store_wellFormed_request st hwf r ro hr).2
      simpa [validRef, hctx] using hv
    obtain ⟨c, hc⟩ := load_some st.ctxs hctxs (a + 1) a ha (Nat.lt_succ_self a)
    refine ⟨[], ?_, ?_, ?_, ?_⟩
    · simp only [Store.RequestContext, hctx, List.append_nil]
    · simpa using hctxs
    · simpa [Store.RequestContext, hctx] using ha
    · simp [Store.RequestContext, hctx, Store.loadContext, hc]

/-- The handler on references, step by step: the context of the request is
taken, one valueCtx object and one request object are allocated, and the inner
handler is served the new request; nothing is done after it returns. -/
theorem WithCorrelationIDRef_serves (xid : Nat → String) (st : Store) (r : Nat)
    (ro : RequestObject) (hr : st.requests[r]? = some ro) (n : Nat)
    (written : List (ResponseWriter × String)) :
    ∃ (s : String) (k : Nat),
      (Header.Get (st.loadHeader ro.Header) correlationIDHeaderName ≠ "" →
        s = Header.Get (st.loadHeader ro.Header) correlationIDHeaderName ∧ k = n)
      ∧ (Header.Get (st.loadHeader ro.Header) correlationIDHeaderName = "" → xid n ≠ "" →
        s = xid n ∧ k = n + 1)
      ∧ ∀ (next : HandlerRef) (w : ResponseWriter),
          (WithCorrelationIDRef xid next).ServeHTTP w r
              { store := st, drawn := n, written := written }
            = next.ServeHTTP w (st.RequestContext ro).1.requests.length
                { store :=
                    { (st.RequestContext ro).1 with
                      ctxs := (st.RequestContext ro).1.ctxs
                        ++ [CtxObject.valueCtx (st.RequestContext ro).2 correlationIDKey
                              (GoAny.string s)],
                      requests := (st.RequestContext ro).1.requests
                        ++ [{ ro with ctx := some (st.RequestContext ro).1.ctxs.length }] },
                  drawn := k, written := written } := by
  by_cases hg : Header.Get (st.loadHeader ro.Header) correlationIDHeaderName = ""
  · by_cases hx : xid n = ""
    · obtain ⟨s, k, hv⟩ := ContextWithCorrelationIDRef_total xid (st.RequestContext ro).1.ctxs
        (st.RequestContext ro).2 [xid n] (n + 1)
      refine ⟨s, k, fun h => absurd hg h, fun _ h => absurd hx h, ?_⟩
      intro next w
      simp only [WithCorrelationIDRef, hr, hg, if_pos, GenerateID, hv, Store.RequestWithContext]
    · refine ⟨xid n, n + 1, fun h => absurd hg h, fun _ _ => ⟨rfl, rfl⟩, ?_⟩
      intro next w
      simp only [WithCorrelationIDRef, hr, hg, if_pos, GenerateID,
        ContextWithCorrelationIDRef_candidate xid _ _ (xid n) [] (n + 1) hx,
        Store.RequestWithContext]
  · refine ⟨Header.Get (st.loadHeader ro.Header) correlationIDHeaderName, n,
      fun _ => ⟨rfl, rfl⟩, fun h => absurd h hg, ?_⟩
    intro next w
    simp only [WithCorrelationIDRef, hr, hg, if_false,
      ContextWithCorrelationIDRef_candidate xid _ _ _ [] n hg, Store.RequestWithContext]

/-- The handler on references agrees with the handler on requests: the request
object handed to the inner handler denotes the request that WithCorrelationID
hands on for the request denoted by r, with the same number of identifiers
drawn. -/
theorem WithCorrelationIDRef_denotes (xid : Nat → String) (st : Store)
    (hwf : st.wellFormed = true) (r : Nat) (ro : RequestObject)
    (hr : st.requests[r]? = some ro) (rv : Request) (hrv : st.loadRequest r = some rv)
    (n : Nat) :
    ∃ (st2 : Store) (r2 k : Nat) (rv2 : Request),
      (∀ (next : HandlerRef) (w : ResponseWriter) (written : List (ResponseWriter × String)),
        (WithCorrelationIDRef xid next).ServeHTTP w r
            { store := st, drawn := n, written := written }
          = next.ServeHTTP w r2 { store := st2, drawn := k, written := written })
      ∧ (∀ (ρ : Type) (next : Handler ρ) (w : ResponseWriter),
        (WithCorrelationID xid next).ServeHTTP w rv n = next.ServeHTTP w rv2 k)
      ∧ st2.loadRequest r2 = some rv2 := by
  obtain ⟨l, hst1, hwf1, hp1, hload1⟩ := RequestContext_spec st hwf r ro hr
  have hrv2 : rv =
      { Method := ro.Method, URL := ro.URL, Header := st.loadHeader ro.Header,
        Body := ro.Body, ctx := st.loadContext ro.ctx } := by
    simp only [Store.loadRequest, hr, Option.some.injEq] at hrv
    exact hrv.symm
  subst hrv2
  obtain ⟨h2, child, m, c, c2, href, hc, hc2, hval⟩ :=
    ContextWithCorrelationIDRef_denotes xid (st.ctxs ++ l) hwf1 (st.RequestContext ro).2 hp1
      [(if Header.Get (st.loadHeader ro.Header) correlationIDHeaderName = ""
          then GenerateID xid n
          else (Header.Get (st.loadHeader ro.Header) correlationIDHeaderName, n)).1]
      (if Header.Get (st.loadHeader ro.Header) correlationIDHeaderName = ""
          then GenerateID xid n
          else (Header.Get (st.loadHeader ro.Header) correlationIDHeaderName, n)).2
  rw [hload1, Option.some.injEq] at hc
  subst hc
  refine ⟨{ st with ctxs := h2, requests := st.requests ++ [{ ro with ctx := some child }] },
    st.requests.length, m,
    { Method := ro.Method, URL := ro.URL, Header := st.loadHeader ro.Header,
      Body := ro.Body, ctx := some c2 }, ?_, ?_, ?_⟩
  · intro next w written
    have hctxs1 : (st.RequestContext ro).1.ctxs = st.ctxs ++ l := by rw [hst1]
    simp only [WithCorrelationIDRef, hr, hctxs1, href, Store.RequestWithContext]
    rw [hst1]
  · intro ρ next w
    simp only [WithCorrelationID, HandlerFunc, Request.Context, hval, Request.WithContext]
  · simp only [Store.loadRequest, List.getElem?_concat_length, Store.loadHeader,
      Store.loadContext, hc2]

/-- The attach on references agrees with the attach on requests: it panics when
SetCorrelationID panics on the context and request denoted, and otherwise
leaves a store in which r denotes the request that SetCorrelationID returns. -/
theorem SetCorrelationIDRef_denotes (xid : Nat → String) (st : Store)
    (hwf : st.wellFormed = true) (ctx : Option Nat) (r : Nat) (ro : RequestObject)
    (hr : st.requests[r]? = some ro) (rv : Request) (hrv : st.loadRequest r = some rv)
    (n : Nat) :
    (SetCorrelationIDRef xid st ctx r n).map (fun q => (q.1.loadRequest r, q.2))
      = (SetCorrelationID xid (st.loadContext ctx) rv n).map (fun q => (some q.1, q.2)) := by
  have hrv2 : rv =
      { Method := ro.Method, URL := ro.URL, Header := st.loadHeader ro.Header,
        Body := ro.Body, ctx := st.loadContext ro.ctx } := by
    simp only [Store.loadRequest, hr, Option.some.injEq] at hrv
    exact hrv.symm
  subst hrv2
  cases hid : ID (st.loadContext ctx) with
  | error e => simp [SetCorrelationIDRef, SetCorrelationID, IDRef, hid, Except.map]
  | ok id =>
    cases hh : ro.Header with
    | none =>
      simp [SetCorrelationIDRef, SetCorrelationID, IDRef, hid, hr, Store.HeaderSet, hh,
        Store.loadHeader, Header.Set, Except.map]
    | some a =>
      have hlt : a < st.maps.length := by
        have hv := (Store_wellFormed_request st hwf r ro hr).1
        simpa [validRef, hh] using hv
      have hm : st.maps[a]? = some st.maps[a] := List.getElem?_eq_getElem hlt
      simp only [SetCorrelationIDRef, SetCorrelationID, IDRef, hid, hr, Store.HeaderSet, hh,
        Store.loadHeader, Header.Set, Except.map, hm]
      simp [Store.loadRequest, hr, hh, Store.loadHeader, Store.loadContext,
        List.getElem?_set_self hlt]

theorem lt_length_of_getElem?_eq {α : Type} (l l2 : List α) (a : Nat) (ha : a < l.length)
    (h : l2[a]? = l[a]?) : a < l2.length := by
  rcases Nat.lt_or_ge a l2.length with hlt | hge
  · exact hlt
  · rw [List.getElem?_eq_none hge, List.getElem?_eq_getElem ha] at h
    cases h

theorem preservedIn_refl (st : Store) : st.preservedIn st :=
  ⟨fun _ _ => rfl, fun _ _ => rfl, fun _ _ => rfl⟩

theorem preservedIn_trans (st st2 st3 : Store) (h12 : st.preservedIn st2)
    (h23 : st2.preservedIn st3) : st.preservedIn st3 := by
  obtain ⟨hc, hm, hq⟩ := h12
  obtain ⟨hc2, hm2, hq2⟩ := h23
  refine ⟨?_, ?_, ?_⟩
  · intro a ha
    rw [hc2 a (lt_length_of_getElem?_eq _ _ a ha (hc a ha)), hc a ha]
  · intro a ha
    rw [hm2 a (lt_length_of_getElem?_eq _ _ a ha (hm a ha)), hm a ha]
  · intro a ha
    rw [hq2 a (lt_length_of_getElem?_eq _ _ a ha (hq a ha)), hq a ha]

/-- A context denotes the same chain in every store of context objects that
keeps the objects of a well-formed store. -/
theorem load_preserved (h h2 : CtxHeap) (hwf : h.wellFormed = true)
    (hkeep : ∀ b, b < h.length → h2[b]? = h[b]?) :
    ∀ (fuel a : Nat), a < h.length → h2.load fuel a = h.load fuel a := by
  intro fuel
  induction fuel with
  | zero => intro a _; rfl
  | succ fuel ih =>
    intro a ha
    simp only [CtxHeap.load, hkeep a ha]
    cases ho : h[a]? with
    | none => rfl
    | some o =>
      have hb := wellFormed_parentBelow h hwf a o ho
      cases o with
      | backgroundCtx => rfl
      | todoCtx => rfl
      | cancelCtx parent =>
        have hp : parent < a := by simpa [CtxObject.parentBelow] using hb
        simp only [ih parent (Nat.lt_trans hp ha)]
      | valueCtx parent key val =>
        have hp : parent < a := by simpa [CtxObject.parentBelow] using hb
        simp only [ih parent (Nat.lt_trans hp ha)]

/-- A request denotes the same request in every store that keeps the objects of
a well-formed store. -/
theorem loadRequest_preserved (st st3 : Store) (hwf : st.wellFormed = true)
    (hpres : st.preservedIn st3) (r : Nat) (ro : RequestObject)
    (hr : st.requests[r]? = some ro) :
    st3.requests[r]? = some ro ∧ st3.loadHeader ro.Header = st.loadHeader ro.Header
      ∧ st3.loadContext ro.ctx = st.loadContext ro.ctx
      ∧ st3.loadRequest r = st.loadRequest r := by
  obtain ⟨hc, hm, hq⟩ := hpres
  have hrlt : r < st.requests.length := (List.getElem?_eq_some.1 hr).1
  have hr3 : st3.requests[r]? = some ro := by rw [hq r hrlt, hr]
  obtain ⟨hvh, hvc⟩ := Store_wellFormed_request st hwf r ro hr
  have hhead : st3.loadHeader ro.Header = st.loadHeader ro.Header := by
    cases hh : ro.Header with
    | none => rfl
    | some a =>
      have ha : a < st.maps.length := by simpa [validRef, hh] using hvh
      simp only [Store.loadHeader]
      exact hm a ha
  have hctx : st3.loadContext ro.ctx = st.loadContext ro.ctx := by
    cases hcx : ro.ctx with
    | none => rfl
    | some a =>
      have ha : a < st.ctxs.length := by simpa [validRef, hcx] using hvc
      simp only [Store.loadContext]
      exact load_preserved st.ctxs st3.ctxs (Store_wellFormed_ctxs st hwf) hc (a + 1) a ha
  refine ⟨hr3, hhead, hctx, ?_⟩
  simp only [Store.loadRequest, hr3, hr, hhead, hctx]

/-- One run of the handler on references in a well-formed store: the world in
which the inner handler is served, and the request it is served. -/
theorem WithCorrelationIDRef_run (xid : Nat → String) (st : Store)
    (hwf : st.wellFormed = true) (r : Nat) (ro : RequestObject)
    (hr : st.requests[r]? = some ro) (n : Nat) (written : List (ResponseWriter × String)) :
    ∃ (st2 : Store) (k child : Nat) (s : String),
      (∀ (next : HandlerRef) (w : ResponseWriter),
        (WithCorrelationIDRef xid next).ServeHTTP w r
            { store := st, drawn := n, written := written }
          = next.ServeHTTP w st.requests.length
              { store := st2, drawn := k, written := written })
      ∧ st2.maps = st.maps
      ∧ st.preservedIn st2
      ∧ st2.requests[st.requests.length]? = some { ro with ctx := some child }
      ∧ st.ctxs.length ≤ child
      ∧ st2.loadContext (some child)
          = some (Context.valueCtx
              (match st.loadContext ro.ctx with
                | some c => c
                | none => Context.background)
              correlationIDKey (GoAny.string s))
      ∧ (Header.Get (st.loadHeader ro.Header) correlationIDHeaderName ≠ "" →
          s = Header.Get (st.loadHeader ro.Header) correlationIDHeaderName ∧ k = n)
      ∧ (Header.Get (st.loadHeader ro.Header) correlationIDHeaderName = "" → xid n ≠ "" →
          s = xid n ∧ k = n + 1) := by
  obtain ⟨l, hst1, hwf1, hp1, hload1⟩ := RequestContext_spec st hwf r ro hr
  obtain ⟨s, k, hadopted, hgenerated, hserve⟩ :=
    WithCorrelationIDRef_serves xid st r ro hr n written
  generalize (st.RequestContext ro).2 = p at hp1 hload1 hserve
  generalize (st.RequestContext ro).1 = st1 at hst1 hserve
  subst hst1
  refine ⟨_, k, (st.ctxs ++ l).length, s, hserve, rfl, ⟨?_, fun _ _ => rfl, ?_⟩, ?_, ?_, ?_,
    hadopted, hgenerated⟩
  · intro a ha
    show (st.ctxs ++ l ++ [CtxObject.valueCtx p correlationIDKey (GoAny.string s)])[a]?
      = st.ctxs[a]?
    rw [List.append_assoc]
    exact List.getElem?_append_left ha
  · intro a ha
    exact List.getElem?_append_left ha
  · exact List.getElem?_concat_length _ _
  · simp
  · simp only [Store.loadContext, load_derived (st.ctxs ++ l) hwf1 p hp1, hload1,
      Option.map_some']

/-- Serving the inner handler twice is told apart from WithCorrelationIDRef: an
inner handler that writes to the response writes one chunk under
WithCorrelationIDRef and two under the variant. -/
theorem serveTwice_told_apart :
    ∃ wdA wdB : World,
      (WithCorrelationIDRef sampleXid echoHandler).ServeHTTP 5 1
          { store := sampleStore, drawn := 0, written := [] } = Except.ok wdA
      ∧ (serveTwice sampleXid echoHandler).ServeHTTP 5 1
          { store := sampleStore, drawn := 0, written := [] } = Except.ok wdB
      ∧ wdA.written = [(5, "corrID-123")]
      ∧ wdB.written = [(5, "corrID-123"), (5, "corrID-123")] :=
  ⟨_, _, rfl, rfl, rfl, rfl⟩

/-- Writing the header back after the inner handler has returned is told apart
from WithCorrelationIDRef: with an inner handler that does nothing, the header
maps are as before under WithCorrelationIDRef and not under the variant. -/
theorem writeBackAfter_told_apart :
    ∃ wdA wdB : World,
      (WithCorrelationIDRef sampleXid idleHandler).ServeHTTP 5 0
          { store := sampleStore, drawn := 0, written := [] } = Except.ok wdA
      ∧ (writeBackAfter sampleXid idleHandler).ServeHTTP 5 0
          { store := sampleStore, drawn := 0, written := [] } = Except.ok wdB
      ∧ wdA.store.maps = sampleStore.maps
      ∧ wdB.store.maps ≠ sampleStore.maps
      ∧ Header.Get (wdA.store.loadHeader (some 0)) correlationIDHeaderName = ""
      ∧ Header.Get (wdB.store.loadHeader (some 0)) correlationIDHeaderName
          = "9m4e2mr0ui3e8a215n4g" :=
  ⟨_, _, rfl, rfl, rfl, by decide, by decide, by decide⟩

/-- C11 (no write-back on the inbound request): in a well-formed store, for
every request r and every inner handler, running the handler returned by
WithCorrelationID is running the inner handler on a newly allocated request r2,
and the world the inner handler leaves is the world the run leaves: the handler
itself writes nothing before the inner handler is called and nothing after it
returns. With an inner handler that does nothing the run ends in a store where
no header map and no existing request or context object has been written; with
any inner handler that writes no existing object, r has the fields it had and
denotes the same request, header and context, after the run. The request r2 is
r with another context and refers to the same header map. When the
"Correlation-ID" header of r is absent or empty it is still absent or empty,
through r and through r2, and only the context of r2 carries the generated
identifier. -/
theorem C11_no_write_back (xid : Nat → String) (hgen : XidNonEmpty xid) (st : Store)
    (hwf : st.wellFormed = true) (r : Nat) (ro : RequestObject)
    (hr : st.requests[r]? = some ro) (n : Nat) (written : List (ResponseWriter × String)) :
    ∃ (st2 : Store) (r2 k : Nat) (ro2 : RequestObject),
      (∀ (next : HandlerRef) (w : ResponseWriter),
        (WithCorrelationIDRef xid next).ServeHTTP w r
            { store := st, drawn := n, written := written }
          = next.ServeHTTP w r2 { store := st2, drawn := k, written := written })
      ∧ (∀ w : ResponseWriter,
        (WithCorrelationIDRef xid idleHandler).ServeHTTP w r
            { store := st, drawn := n, written := written }
          = Except.ok { store := st2, drawn := k, written := written })
      ∧ (∀ (next : HandlerRef) (w : ResponseWriter) (wd3 : World),
          next.writesNoExisting →
          (WithCorrelationIDRef xid next).ServeHTTP w r
              { store := st, drawn := n, written := written } = Except.ok wd3 →
          st.preservedIn wd3.store
          ∧ wd3.store.requests[r]? = some ro
          ∧ wd3.store.loadHeader ro.Header = st.loadHeader ro.Header
          ∧ wd3.store.loadContext ro.ctx = st.loadContext ro.ctx
          ∧ wd3.store.loadRequest r = st.loadRequest r)
      ∧ st2.maps = st.maps
      ∧ (∀ a, a < st.requests.length → st2.requests[a]? = st.requests[a]?)
      ∧ (∀ a, a < st.ctxs.length → st2.ctxs[a]? = st.ctxs[a]?)
      ∧ st2.requests[r]? = some ro
      ∧ st2.loadContext ro.ctx = st.loadContext ro.ctx
      ∧ st2.loadRequest r = st.loadRequest r
      ∧ st.requests.length ≤ r2
      ∧ st2.requests[r2]? = some ro2
      ∧ ro2 = { ro with ctx := ro2.ctx }
      ∧ (Header.Get (st.loadHeader ro.Header) correlationIDHeaderName = "" →
          Header.Get (st2.loadHeader ro.Header) correlationIDHeaderName = ""
          ∧ Header.Get (st2.loadHeader ro2.Header) correlationIDHeaderName = ""
          ∧ IDRef st2 ro2.ctx = Except.ok (GenerateID xid n).1
          ∧ k = (GenerateID xid n).2) := by
  obtain ⟨st2, k, child, s, hserve, hmaps, hpres, hreq2, _, hload2, _, hgenerated⟩ :=
    WithCorrelationIDRef_run xid st hwf r ro hr n written
  obtain ⟨hr2, hhead2, hctx2, hlr2⟩ := loadRequest_preserved st st2 hwf hpres r ro hr
  refine ⟨st2, st.requests.length, k, { ro with ctx := some child }, hserve, ?_, ?_, hmaps,
    hpres.2.2, hpres.1, hr2, hctx2, hlr2, Nat.le_refl _, hreq2, rfl, ?_⟩
  · intro w
    rw [hserve]
    rfl
  · intro next w wd3 hnext hrun
    rw [hserve] at hrun
    have hpres3 : st.preservedIn wd3.store :=
      preservedIn_trans st st2 wd3.store hpres (hnext _ _ _ _ hrun)
    exact ⟨hpres3, loadRequest_preserved st wd3.store hwf hpres3 r ro hr⟩
  · intro hg
    obtain ⟨hs, hk⟩ := hgenerated hg (hgen n)
    subst hs
    refine ⟨?_, ?_, ?_, ?_⟩
    · rw [hhead2]
      exact hg
    · show Header.Get (st2.loadHeader ro.Header) correlationIDHeaderName = ""
      rw [hhead2]
      exact hg
    · show ID (st2.loadContext (some child)) = Except.ok (GenerateID xid n).1
      rw [hload2]
      exact ID_valueCtx_string _ _
    · simpa [GenerateID] using hk

theorem C11_no_write_back_witness :
    XidNonEmpty sampleXid ∧ sampleStore.wellFormed = true ∧
    sampleStore.requests[0]? = some sampleRequestObject ∧
    ∃ (st2 : Store) (r2 k : Nat) (ro2 : RequestObject),
      (∀ (next : HandlerRef) (w : ResponseWriter),
        (WithCorrelationIDRef sampleXid next).ServeHTTP w 0
            { store := sampleStore, drawn := 0, written := [(7, "earlier")] }
          = next.ServeHTTP w r2 { store := st2, drawn := k, written := [(7, "earlier")] })
      ∧ (∀ w : ResponseWriter,
        (WithCorrelationIDRef sampleXid idleHandler).ServeHTTP w 0
            { store := sampleStore, drawn := 0, written := [(7, "earlier")] }
          = Except.ok { store := st2, drawn := k, written := [(7, "earlier")] })
      ∧ (∀ (next : HandlerRef) (w : ResponseWriter) (wd3 : World),
          next.writesNoExisting →
          (WithCorrelationIDRef sampleXid next).ServeHTTP w 0
              { store := sampleStore, drawn := 0, written := [(7, "earlier")] } = Except.ok wd3 →
          sampleStore.preservedIn wd3.store
          ∧ wd3.store.requests[0]? = some sampleRequestObject
          ∧ wd3.store.loadHeader sampleRequestObject.Header = sampleStore.loadHeader sampleRequestObject.Header
          ∧ wd3.store.loadContext sampleRequestObject.ctx = sampleStore.loadContext sampleRequestObject.ctx
          ∧ wd3.store.loadRequest 0 = sampleStore.loadRequest 0)
      ∧ st2.maps = sampleStore.maps
      ∧ (∀ a, a < sampleStore.requests.length → st2.requests[a]? = sampleStore.requests[a]?)
      ∧ (∀ a, a < sampleStore.ctxs.length → st2.ctxs[a]? = sampleStore.ctxs[a]?)
      ∧ st2.requests[0]? = some sampleRequestObject
      ∧ st2.loadContext sampleRequestObject.ctx = sampleStore.loadContext sampleRequestObject.ctx
      ∧ st2.loadRequest 0 = sampleStore.loadRequest 0
      ∧ sampleStore.requests.length ≤ r2
      ∧ st2.requests[r2]? = some ro2
      ∧ ro2 = { sampleRequestObject with ctx := ro2.ctx }
      ∧ (Header.Get (sampleStore.loadHeader sampleRequestObject.Header) correlationIDHeaderName = "" →
          Header.Get (st2.loadHeader sampleRequestObject.Header) correlationIDHeaderName = ""
          ∧ Header.Get (st2.loadHeader ro2.Header) correlationIDHeaderName = ""
          ∧ IDRef st2 ro2.ctx = Except.ok (GenerateID sampleXid 0).1
          ∧ k = (GenerateID sampleXid 0).2) :=
  ⟨sampleXid_nonempty, by decide, rfl,
    C11_no_write_back sampleXid sampleXid_nonempty sampleStore (by decide) 0
      sampleRequestObject rfl 0 [(7, "earlier")]⟩

/-- C15 (middleware delegation): in a well-formed store, for every request r
there is one newly allocated request r2 such that, for every inner handler and
writer, running the handler returned by WithCorrelationID is running the inner
handler once, on r2 and the writer given: the world the run leaves is the world
that one call leaves. With an inner handler that writes the correlation ID of
its request to the writer, exactly one chunk is written, to that writer. The
request r2 has the method, URL, header map and body of r, and its context is
the context of r (Background when r has none) extended by one binding of the
correlation key, so every other key reads as in the context of r. -/
theorem C15_middleware_delegation (xid : Nat → String) (st : Store)
    (hwf : st.wellFormed = true) (r : Nat) (ro : RequestObject)
    (hr : st.requests[r]? = some ro) (n : Nat) (written : List (ResponseWriter × String)) :
    ∃ (st2 : Store) (r2 k : Nat) (ro2 : RequestObject) (s : String),
      (∀ (next : HandlerRef) (w : ResponseWriter),
        (WithCorrelationIDRef xid next).ServeHTTP w r
            { store := st, drawn := n, written := written }
          = next.ServeHTTP w r2 { store := st2, drawn := k, written := written })
      ∧ (∀ w : ResponseWriter,
        (WithCorrelationIDRef xid echoHandler).ServeHTTP w r
            { store := st, drawn := n, written := written }
          = Except.ok { store := st2, drawn := k, written := written ++ [(w, s)] })
      ∧ st2.requests[r2]? = some ro2
      ∧ ro2.Method = ro.Method ∧ ro2.URL = ro.URL ∧ ro2.Header = ro.Header
      ∧ ro2.Body = ro.Body
      ∧ st2.loadHeader ro2.Header = st.loadHeader ro.Header
      ∧ st2.loadContext ro2.ctx
          = some (Context.valueCtx
              (match st.loadContext ro.ctx with
                | some c => c
                | none => Context.background)
              correlationIDKey (GoAny.string s))
      ∧ (∀ key, key ≠ correlationIDKey →
          (Context.valueCtx
              (match st.loadContext ro.ctx with
                | some c => c
                | none => Context.background)
              correlationIDKey (GoAny.string s)).Value key
            = (match st.loadContext ro.ctx with
                | some c => c
                | none => Context.background).Value key) := by
  obtain ⟨st2, k, child, s, hserve, _, hpres, hreq2, _, hload2, _, _⟩ :=
    WithCorrelationIDRef_run xid st hwf r ro hr n written
  obtain ⟨_, hhead2, _, _⟩ := loadRequest_preserved st st2 hwf hpres r ro hr
  refine ⟨st2, st.requests.length, k, { ro with ctx := some child }, s, hserve, ?_, hreq2,
    rfl, rfl, rfl, rfl, hhead2, hload2, ?_⟩
  · intro w
    rw [hserve]
    simp only [echoHandler, hreq2, Store.RequestContext, IDRef, hload2, ID_valueCtx_string]
  · intro key hkey
    simp only [Context.Value, if_neg (Ne.symm hkey)]

theorem C15_middleware_delegation_witness :
    sampleStore.wellFormed = true ∧
    sampleStore.requests[1]?
      = some { Method := "POST", URL := "/things", Header := some 1, Body := "payload",
               ctx := some 2 } ∧
    ∃ (st2 : Store) (r2 k : Nat) (ro2 : RequestObject) (s : String),
      (∀ (next : HandlerRef) (w : ResponseWriter),
        (WithCorrelationIDRef sampleXid next).ServeHTTP w 1
            { store := sampleStore, drawn := 3, written := [(7, "earlier")] }
          = next.ServeHTTP w r2 { store := st2, drawn := k, written := [(7, "earlier")] })
      ∧ (∀ w : ResponseWriter,
        (WithCorrelationIDRef sampleXid echoHandler).ServeHTTP w 1
            { store := sampleStore, drawn := 3, written := [(7, "earlier")] }
          = Except.ok { store := st2, drawn := k, written := [(7, "earlier")] ++ [(w, s)] })
      ∧ st2.requests[r2]? = some ro2
      ∧ ro2.Method = ({ Method := "POST", URL := "/things", Header := some 1, Body := "payload", ctx := some 2 } : RequestObject).Method ∧ ro2.URL = ({ Method := "POST", URL := "/things", Header := some 1, Body := "payload", ctx := some 2 } : RequestObject).URL ∧ ro2.Header = ({ Method := "POST", URL := "/things", Header := some 1, Body := "payload", ctx := some 2 } : RequestObject).Header
      ∧ ro2.Body = ({ Method := "POST", URL := "/things", Header := some 1, Body := "payload", ctx := some 2 } : RequestObject).Body
      ∧ st2.loadHeader ro2.Header = sampleStore.loadHeader ({ Method := "POST", URL := "/things", Header := some 1, Body := "payload", ctx := some 2 } : RequestObject).Header
      ∧ st2.loadContext ro2.ctx
          = some (Context.valueCtx
              (match sampleStore.loadContext ({ Method := "POST", URL := "/things", Header := some 1, Body := "payload", ctx := some 2 } : RequestObject).ctx with
                | some c => c
                | none => Context.background)
              correlationIDKey (GoAny.string s))
      ∧ (∀ key, key ≠ correlationIDKey →
          (Context.valueCtx
              (match sampleStore.loadContext ({ Method := "POST", URL := "/things", Header := some 1, Body := "payload", ctx := some 2 } : RequestObject).ctx with
                | some c => c
                | none => Context.background)
              correlationIDKey (GoAny.string s)).Value key
            = (match sampleStore.loadContext ({ Method := "POST", URL := "/things", Header := some 1, Body := "payload", ctx := some 2 } : RequestObject).ctx with
                | some c => c
                | none => Context.background).Value key) :=
  ⟨by decide, rfl,
    C15_middleware_delegation sampleXid sampleStore (by decide) 1 _ rfl 3 [(7, "earlier")]⟩

/-- C16 (outbound attach frame): in a well-formed store, for every context and
every request whose header map is not nil, SetCorrelationID succeeds and writes
one header map only, the one of the request, and in it only the entry under the
canonical form of "Correlation-ID": every other entry of that map, and so every
header of another canonical name, keeps its values; every other header map,
every request object and every context object is as before, so the context
returns the same value for every key and the same ID after the call. -/
theorem C16_outbound_attach_frame (xid : Nat → String) (st : Store)
    (hwf : st.wellFormed = true) (c : Nat) (hc : c < st.ctxs.length) (r : Nat)
    (ro : RequestObject) (hr : st.requests[r]? = some ro) (hmap : Nat)
    (hh : ro.Header = some hmap) (n : Nat) :
    ∃ (st2 : Store) (k : Nat) (m m2 : HeaderMap),
      SetCorrelationIDRef xid st (some c) r n = Except.ok (st2, k)
      ∧ st.maps[hmap]? = some m ∧ st2.maps[hmap]? = some m2
      ∧ (∀ key, key ≠ CanonicalMIMEHeaderKey correlationIDHeaderName →
          m2.index key = m.index key)
      ∧ (∀ key, CanonicalMIMEHeaderKey key ≠ CanonicalMIMEHeaderKey correlationIDHeaderName →
          Header.Values (st2.loadHeader ro.Header) key
            = Header.Values (st.loadHeader ro.Header) key)
      ∧ (∀ b, b ≠ hmap → st2.maps[b]? = st.maps[b]?)
      ∧ st2.requests = st.requests
      ∧ st2.ctxs = st.ctxs
      ∧ (∀ a key, st2.ctxs.ValueAt a key = st.ctxs.ValueAt a key)
      ∧ IDRef st2 (some c) = IDRef st (some c)
      ∧ (IDRef st (some c) = Except.ok "" → IDRef st2 (some c) = Except.ok "") := by
  have hctxs := Store_wellFormed_ctxs st hwf
  obtain ⟨cv, hcv⟩ := load_some st.ctxs hctxs (c + 1) c hc (Nat.lt_succ_self c)
  have hid : ∃ s, IDRef st (some c) = Except.ok s := by
    simp only [IDRef, Store.loadContext, hcv, ID]
    split
    · exact ⟨_, rfl⟩
    · exact ⟨_, rfl⟩
  obtain ⟨s, hs⟩ := hid
  have hlt : hmap < st.maps.length := by
    have hv := (Store_wellFormed_request st hwf r ro hr).1
    simpa [validRef, hh] using hv
  have hm : st.maps[hmap]? = some st.maps[hmap] := List.getElem?_eq_getElem hlt
  have hrun : SetCorrelationIDRef xid st (some c) r n
      = Except.ok
          ({ st with
             maps := st.maps.set hmap
               (st.maps[hmap].assign (CanonicalMIMEHeaderKey correlationIDHeaderName)
                 [(if len s = 0 then GenerateID xid n else (s, n)).1]) },
           (if len s = 0 then GenerateID xid n else (s, n)).2) := by
    simp only [SetCorrelationIDRef, hs, hr, Store.HeaderSet, hh, hm]
  have hset : (st.maps.set hmap
      (st.maps[hmap].assign (CanonicalMIMEHeaderKey correlationIDHeaderName)
        [(if len s = 0 then GenerateID xid n else (s, n)).1]))[hmap]?
      = some (st.maps[hmap].assign (CanonicalMIMEHeaderKey correlationIDHeaderName)
        [(if len s = 0 then GenerateID xid n else (s, n)).1]) :=
    List.getElem?_set_self hlt
  refine ⟨_, _, st.maps[hmap], _, hrun, hm, hset, ?_, ?_, ?_, rfl, rfl, fun _ _ => rfl, rfl,
    fun h => h⟩
  · intro key hkey
    exact HeaderMap_index_assign_ne _ _ key _ hkey
  · intro key hkey
    simp only [Store.loadHeader, hh, hset, hm, Header.Values]
    exact HeaderMap_index_assign_ne _ _ _ _ hkey
  · intro b hb
    exact List.getElem?_set_ne (Ne.symm hb)

theorem C16_outbound_attach_frame_witness :
    sampleStore.wellFormed = true ∧ 1 < sampleStore.ctxs.length ∧
    sampleStore.requests[1]?
      = some { Method := "POST", URL := "/things", Header := some 1, Body := "payload",
               ctx := some 2 } ∧
    ({ Method := "POST", URL := "/things", Header := some 1, Body := "payload",
       ctx := some 2 } : RequestObject).Header = some 1 ∧
    ∃ (st2 : Store) (k : Nat) (m m2 : HeaderMap),
      SetCorrelationIDRef sampleXid sampleStore (some 1) 1 0 = Except.ok (st2, k)
      ∧ sampleStore.maps[1]? = some m ∧ st2.maps[1]? = some m2
      ∧ (∀ key, key ≠ CanonicalMIMEHeaderKey correlationIDHeaderName →
          m2.index key = m.index key)
      ∧ (∀ key, CanonicalMIMEHeaderKey key ≠ CanonicalMIMEHeaderKey correlationIDHeaderName →
          Header.Values (st2.loadHeader
            ({ Method := "POST", URL := "/things", Header := some 1, Body := "payload",
               ctx := some 2 } : RequestObject).Header) key
            = Header.Values (sampleStore.loadHeader
              ({ Method := "POST", URL := "/things", Header := some 1, Body := "payload",
                 ctx := some 2 } : RequestObject).Header) key)
      ∧ (∀ b, b ≠ 1 → st2.maps[b]? = sampleStore.maps[b]?)
      ∧ st2.requests = sampleStore.requests
      ∧ st2.ctxs = sampleStore.ctxs
      ∧ (∀ a key, st2.ctxs.ValueAt a key = sampleStore.ctxs.ValueAt a key)
      ∧ IDRef st2 (some 1) = IDRef sampleStore (some 1)
      ∧ (IDRef sampleStore (some 1) = Except.ok "" → IDRef st2 (some 1) = Except.ok "") :=
  ⟨by decide, by decide, rfl, rfl,
    C16_outbound_attach_frame sampleXid sampleStore (by decide) 1 (by decide) 1 _ rfl 1 rfl 0⟩

end Correlation
